import Mathlib

/-!
Verification development for the dental-clinic WhatsApp booking bot
(`src/index.js`).  The JavaScript source is shallowly embedded: absolute
instants are modelled as integer minutes since an epoch, the clinic time
zone `America/Santo_Domingo` as its fixed UTC offset of -240 minutes (the
zone uses no DST, so `Intl`-based conversion in the source is a constant
shift), strings as Lean `String`s, and the loosely-typed session JSON as an
explicit JSON value type.  Environment-dependent configuration is fixed at
the source's defaults (`defaultWorkHours`, `defaultServiceDuration`,
`SLOT_STEP_MIN = 15`).
-/

namespace WaDentalBot

/-! ## Time and calendar math (`getZonedParts`, `zonedTimeToUtc`)

`getZonedParts date tz` shifts an instant by the zone offset and reads the
wall clock; `zonedTimeToUtc` undoes the shift.  With the fixed -04:00
offset of `America/Santo_Domingo` both are a constant translation by
`tzOffsetMin` minutes. -/

/-- Offset of the clinic zone relative to UTC, in minutes (UTC-4, no DST). -/
def tzOffsetMin : Int := -240

/-- Wall-clock minutes of an instant, as in `getZonedParts`. -/
def localOf (t : Int) : Int := t + tzOffsetMin

/-- Instant of a wall-clock minute value, as in `zonedTimeToUtc`. -/
def utcOfLocal (lm : Int) : Int := lm - tzOffsetMin

/-- Local calendar-day index (days since epoch, clinic wall clock). -/
def localDay (t : Int) : Int := localOf t / 1440

/-- Minute-of-day on the clinic wall clock. -/
def localMinOfDay (t : Int) : Int := localOf t % 1440

/-- Local hour, as produced by `getZonedParts(...).hour`. -/
def localHour (t : Int) : Int := localMinOfDay t / 60

/-- Local minute, as produced by `getZonedParts(...).minute`. -/
def localMinute (t : Int) : Int := localMinOfDay t % 60

/-- ISO weekday (1 = Monday .. 7 = Sunday) of a local day index. The source
computes `((jsDate.getUTCDay() + 6) % 7) + 1` from the local Y/M/D at noon;
day 0 of the epoch (1970-01-01) is a Thursday (ISO 4). -/
def isoWeekdayOfDay (d : Int) : Nat := ((d + 3) % 7).toNat + 1

/-! ## Configuration defaults (`defaultWorkHours`, `defaultServiceDuration`,
`SLOT_STEP_MIN`) -/

/-- `SLOT_STEP_MIN` (env default `"15"`). -/
def SLOT_STEP_MIN : Nat := 15

/-- `defaultWorkHours()` keyed by ISO weekday: Mon-Fri 08:00-17:00,
Sat 08:00-13:00, Sun closed; times as minutes of day. -/
def WORK_HOURS (w : Nat) : Option (Nat × Nat) :=
  if 1 ≤ w ∧ w ≤ 5 then some (480, 1020)
  else if w = 6 then some (480, 780)
  else none

/-- `defaultServiceDuration()`. -/
def SERVICE_DURATION : List (String × Nat) :=
  [("estetica_dental", 60), ("ortodoncia", 30), ("implantes", 60),
   ("urgencias", 30), ("limpieza_prevencion", 45), ("odontopediatria", 45),
   ("otro", 30)]

/-- `SERVICE_DURATION[service] || SERVICE_DURATION["otro"] || 30` in
`getAvailableSlotsTool`. -/
def serviceDurationOf (service : String) : Nat :=
  ((SERVICE_DURATION.lookup service).orElse
    (fun _ => SERVICE_DURATION.lookup "otro")).getD 30

/-! ## Availability engine (`buildCandidateSlotsZoned`, `overlaps`,
`getAvailableSlotsTool`) -/

/-- A candidate bookable interval (the object pushed by
`buildCandidateSlotsZoned`); `end` is a Lean keyword, so the field is
called `stop`. -/
structure Slot where
  slot_id : String
  service : String
  start : Int
  stop : Int
deriving DecidableEq, Repr

/-- `Math.ceil(cursorMin / SLOT_STEP_MIN) * SLOT_STEP_MIN`. -/
def ceilToStep (m : Nat) : Nat := ((m + SLOT_STEP_MIN - 1) / SLOT_STEP_MIN) * SLOT_STEP_MIN

/-- The inner `while (cursorMin + durationMin <= endMin)` loop, emitting the
successive cursor positions.  `fuel` bounds the iteration count; the loop
advances by `SLOT_STEP_MIN = 15` each round and stops once
`cursor + dur > endMin`, so `endMin + 1` rounds always suffice. -/
def cursorSlotsF : Nat → Nat → Nat → Nat → List Nat
  | 0, _, _, _ => []
  | fuel + 1, cursor, endMin, dur =>
    if cursor + dur ≤ endMin then
      cursor :: cursorSlotsF fuel (cursor + SLOT_STEP_MIN) endMin dur
    else []

/-- Cursor positions generated for one day from an open window
`[startMin, endMin]`. -/
def dayCursors (startMin endMin dur : Nat) : List Nat :=
  cursorSlotsF (endMin + 1) (ceilToStep startMin) endMin dur

/-- Candidate slots emitted for the local day `d`: looks up the weekday's
work hours, walks the cursor loop, converts each cursor to an absolute
instant and keeps it only when `slotStartUTC >= from && slotEndUTC <= to`. -/
def slotsForDay (service : String) (tFrom tTo : Int) (dur : Nat) (d : Int) : List Slot :=
  match WORK_HOURS (isoWeekdayOfDay d) with
  | none => []
  | some (sMin, eMin) =>
    (dayCursors sMin eMin dur).filterMap (fun (c : Nat) =>
      let st : Int := utcOfLocal (d * 1440 + (c : Int))
      let en : Int := st + (dur : Int)
      if tFrom ≤ st ∧ en ≤ tTo then
        some { slot_id := "slot_" ++ toString st, service := service, start := st, stop := en }
      else none)

/-- The local days visited by the outer `while (curUTC <= endUTC)` loop:
`curUTC` starts at local midnight of `from`'s local day and advances one
local day per round, and `endUTC` is 23:59 local of `to`'s local day, so
exactly the days `localDay from .. localDay to` are visited. -/
def dayRange (d0 d1 : Int) : List Int :=
  (List.range (d1 + 1 - d0).toNat).map (fun k => d0 + (k : Int))

/-- `buildCandidateSlotsZoned({service, fromISO, toISO, durationMin})`. -/
def buildCandidateSlotsZoned (service : String) (tFrom tTo : Int) (dur : Nat) : List Slot :=
  (dayRange (localDay tFrom) (localDay tTo)).flatMap (slotsForDay service tFrom tTo dur)

/-- `overlaps(aStart, aEnd, bStart, bEnd)`. -/
def overlaps (aStart aEnd bStart bEnd : Int) : Bool :=
  decide (aStart < bEnd ∧ aEnd > bStart)

/-- `getAvailableSlotsTool({service, from, to})`, with the busy ranges
returned by the external `freebusy.query` supplied as an argument:
generate candidates, drop any candidate overlapping a busy range, and
truncate to 8. -/
def getAvailableSlots (service : String) (tFrom tTo : Int)
    (busy : List (Int × Int)) : List Slot :=
  let dur := serviceDurationOf service
  let candidates := buildCandidateSlotsZoned service tFrom tTo dur
  (candidates.filter (fun c =>
    ! busy.any (fun b => overlaps c.start c.stop b.1 b.2))).take 8

/-- Decidable rendering of "the slot's start is aligned to the step
granularity and the slot fits inside its local day's open window". -/
def slotAlignedInOpenWindow (dur : Nat) (s : Slot) : Bool :=
  match WORK_HOURS (isoWeekdayOfDay (localDay s.start)) with
  | none => false
  | some (o, c) =>
    decide ((o : Int) ≤ localMinOfDay s.start ∧
      localMinOfDay s.start + (dur : Int) ≤ (c : Int) ∧
      localMinOfDay s.start % (SLOT_STEP_MIN : Int) = 0)

/-! ## Text normalisation (`normalizeText` and friends)

`normalizeText` lower-cases, strips diacritics via NFD normalisation plus
removal of combining marks, collapses whitespace runs to a single space and
trims.  The embedding folds the precomposed Latin letters that occur in the
bot's Spanish vocabulary directly to their base letters, which is what the
NFD + `\p{Diacritic}` pipeline produces on them. -/

/-- `String.prototype.toLowerCase` restricted to the alphabet the bot
manipulates (ASCII plus the Spanish accented letters). -/
def lowerChar (c : Char) : Char :=
  if 'A' ≤ c ∧ c ≤ 'Z' then Char.ofNat (c.toNat + 32)
  else if c = 'Á' then 'á' else if c = 'É' then 'é' else if c = 'Í' then 'í'
  else if c = 'Ó' then 'ó' else if c = 'Ú' then 'ú' else if c = 'Ü' then 'ü'
  else if c = 'Ñ' then 'ñ' else c

/-- NFD normalisation followed by removal of `\p{Diacritic}` marks, on
precomposed lowercase letters. -/
def stripDiacritic (c : Char) : Char :=
  if c = 'á' then 'a' else if c = 'é' then 'e' else if c = 'í' then 'i'
  else if c = 'ó' then 'o' else if c = 'ú' then 'u' else if c = 'ü' then 'u'
  else if c = 'ñ' then 'n' else c

/-- JavaScript `\s` on the whitespace the transport can deliver. -/
def isWS (c : Char) : Bool := c = ' ' || c = '\t' || c = '\n' || c = '\r'

/-- Replace every maximal whitespace run by a single space (`\s+` → `" "`).
The flag records whether the previous character was whitespace. -/
def collapseWSAux : Bool → List Char → List Char
  | _, [] => []
  | prevWS, c :: rest =>
    if isWS c then
      (if prevWS then [] else [' ']) ++ collapseWSAux true rest
    else c :: collapseWSAux false rest

def collapseWS (l : List Char) : List Char := collapseWSAux false l

/-- Drop leading and trailing whitespace. -/
def trimChars (l : List Char) : List Char :=
  ((l.dropWhile isWS).reverse.dropWhile isWS).reverse

/-- `String.prototype.trim`. -/
def jsTrim (s : String) : String := String.mk (trimChars s.data)

/-- `normalizeText(t)`. -/
def normalizeText (s : String) : String :=
  String.mk (trimChars (collapseWS ((s.data.map lowerChar).map stripDiacritic)))

/-- `needle` occurs at the head of the list. -/
def listStartsWith : List Char → List Char → Bool
  | _, [] => true
  | [], _ :: _ => false
  | a :: as, b :: bs => a == b && listStartsWith as bs

/-- `needle` occurs somewhere in the list (`String.prototype.includes`). -/
def listContainsSub (needle : List Char) : List Char → Bool
  | [] => listStartsWith [] needle
  | c :: rest => listStartsWith (c :: rest) needle || listContainsSub needle rest

/-- `t.includes(sub)`. -/
def sIncludes (t sub : String) : Bool := listContainsSub sub.data t.data

/-- `t.startsWith(p)`. -/
def sStartsWith (t p : String) : Bool := listStartsWith t.data p.data

/-- `parseInt` on a digit string (the source only applies it to matches of
`\d+`). -/
def digitsToNat (l : List Char) : Nat :=
  l.foldl (fun acc c => acc * 10 + (c.toNat - '0'.toNat)) 0

/-! ## Intent classifiers (keyword checks on normalised text) -/

/-- Drop an exact leading run; `none` when the run is not there. -/
def dropRun : List Char → List Char → Option (List Char)
  | t, [] => some t
  | [], _ :: _ => none
  | a :: as, b :: bs => if a == b then dropRun as bs else none

/-- JavaScript `\w`. -/
def isWordChar (c : Char) : Bool :=
  ('a' ≤ c && c ≤ 'z') || ('A' ≤ c && c ≤ 'Z') || c.isDigit || c = '_'

/-- Matcher for `^(base rep+)\b`, used for the `/^(hola+|buenas+)\b/` test
in `isGreeting` (base `"hol"` with repeated `'a'`, base `"buena"` with
repeated `'s'`). -/
def matchWordRep (t base : List Char) (rep : Char) : Bool :=
  match dropRun t base with
  | none => false
  | some rest =>
    match rest with
    | [] => false
    | c :: cs =>
      c == rep &&
        (match (c :: cs).dropWhile (fun d => d == rep) with
         | [] => true
         | d :: _ => !isWordChar d)

def matchHolaBuenas (t : String) : Bool :=
  matchWordRep t.data "hol".data 'a' || matchWordRep t.data "buena".data 's'

/-- `isGreeting(textNorm)`. -/
def isGreeting (t : String) : Bool :=
  let greetings := ["hola", "buen dia", "buen día", "buenos dias",
    "buenos días", "buenas", "buenas tardes", "buenas noches", "saludos",
    "hey", "hi"]
  let isOnlyGreeting :=
    greetings.any (fun g => t == g || sStartsWith t (g ++ " ")) || matchHolaBuenas t
  let hasBookingIntent :=
    sIncludes t "cita" || sIncludes t "agendar" || sIncludes t "agenda" ||
    sIncludes t "reservar" || sIncludes t "reserva" ||
    sIncludes t "reprogram" || sIncludes t "cancel"
  isOnlyGreeting && !hasBookingIntent && decide (t.length ≤ 40)

/-- `isThanks(textNorm)`. -/
def isThanks (t : String) : Bool :=
  ["gracias", "ok", "okay", "listo", "perfecto", "dale", "bien", "genial"].any
    (fun k => t == k || sIncludes t k)

/-- `isChoice(textNorm, n)`. -/
def isChoice (t : String) (n : Nat) : Bool :=
  t == toString n || t == toString n ++ "." || sStartsWith t (toString n ++ " ")

/-- `looksLikeConfirm(textNorm)`. -/
def looksLikeConfirm (t : String) : Bool :=
  ["confirmar", "confirmo", "confirmada", "confirmado", "confirmacion",
   "confirmación"].any (fun k => sIncludes t k)

/-- `looksLikeCancel(textNorm)`. -/
def looksLikeCancel (t : String) : Bool :=
  ["cancelar", "cancela", "anular", "anula", "no puedo", "ya no",
   "cancelacion", "cancelación"].any (fun k => sIncludes t k)

/-- `looksLikeReschedule(textNorm)`. -/
def looksLikeReschedule (t : String) : Bool :=
  ["reprogramar", "reprograma", "cambiar", "cambio", "mover", "posponer",
   "otro horario"].any (fun k => sIncludes t k)

/-- `looksLikeNewAppointment(textNorm)`. -/
def looksLikeNewAppointment (t : String) : Bool :=
  ["nueva cita", "otra cita", "agendar", "reservar", "cita nueva",
   "quiero cita"].any (fun k => sIncludes t k)

/-! ## Service catalog and detection -/

structure Service where
  key : String
  title : String
  id : String
deriving DecidableEq, Repr

def SERVICES : List Service :=
  [⟨"estetica_dental", "Estética dental", "svc_estetica"⟩,
   ⟨"ortodoncia", "Ortodoncia", "svc_ortodoncia"⟩,
   ⟨"implantes", "Implantes", "svc_implantes"⟩,
   ⟨"urgencias", "Urgencias", "svc_urgencias"⟩,
   ⟨"limpieza_prevencion", "Limpiezas y prevención", "svc_limpieza_prevencion"⟩,
   ⟨"odontopediatria", "Odontopediatría", "svc_odontopediatria"⟩]

/-- `detectServiceKeyFromUser(text)`: exact interactive-list id match on the
raw text, then title equality/containment on the normalised text, then the
keyword fallbacks. -/
def detectServiceKeyFromUser (text : String) : Option String :=
  let t := normalizeText text
  match SERVICES.find? (fun s => s.id == text) with
  | some s => some s.key
  | none =>
    match SERVICES.find? (fun s =>
        t == normalizeText s.title || sIncludes t (normalizeText s.title)) with
    | some s => some s.key
    | none =>
      if sIncludes t "limpieza" then some "limpieza_prevencion"
      else if sIncludes t "prevencion" then some "limpieza_prevencion"
      else if sIncludes t "orto" then some "ortodoncia"
      else if sIncludes t "implante" then some "implantes"
      else if sIncludes t "pediatr" then some "odontopediatria"
      else if sIncludes t "estetica" || sIncludes t "estética" then some "estetica_dental"
      else if sIncludes t "urgencia" then some "urgencias"
      else none

/-! ## Time-of-day parsing and slot picking (`parseUserTimeTo24h`,
`tryPickSlotFromUserText`) -/

/-- The optional `(?::(\d{2}))?` group: no text or no colon leaves the
minutes at 0 and the input untouched; a colon must be followed by exactly
two digits which are consumed. -/
def parseMinutesPart : List Char → Option (Nat × List Char)
  | [] => some (0, [])
  | ':' :: rest =>
    match rest with
    | a :: b :: r => if a.isDigit && b.isDigit then some (digitsToNat [a, b], r) else none
    | _ => none
  | l => some (0, l)

/-- `parseUserTimeTo24h(userText)`: trim + lowercase, delete dots, collapse
whitespace, then match `^(\d{1,2})(?::(\d{2}))?\s*(am|pm)?$` and convert a
meridiem-tagged hour to 24h. -/
def parseUserTimeTo24h (userText : String) : Option (Nat × Nat) :=
  let raw := (jsTrim userText).data.map lowerChar
  let compact := trimChars (collapseWS (raw.filter (fun c => c != '.')))
  let ds := compact.takeWhile Char.isDigit
  let r1 := compact.dropWhile Char.isDigit
  if ds.length = 0 ∨ ds.length > 2 then none else
  let hh := digitsToNat ds
  match parseMinutesPart r1 with
  | none => none
  | some (mm, r2) =>
    let r3 := r2.dropWhile isWS
    if r3 = [] then
      if hh > 23 ∨ mm > 59 then none else some (hh, mm)
    else if r3 = "am".data then
      if hh > 23 ∨ mm > 59 then none
      else if hh < 1 ∨ hh > 12 then none
      else if hh = 12 then some (0, mm) else some (hh, mm)
    else if r3 = "pm".data then
      if hh > 23 ∨ mm > 59 then none
      else if hh < 1 ∨ hh > 12 then none
      else if hh = 12 then some (12, mm) else some (hh + 12, mm)
    else none

/-- The legacy fallback regex `^(\d{1,2})(?::(\d{2}))?$` applied to the
normalised text (no meridiem, no range checks). -/
def parseBareTime (t : String) : Option (Nat × Nat) :=
  let l := t.data
  let ds := l.takeWhile Char.isDigit
  let r1 := l.dropWhile Char.isDigit
  if ds.length = 0 ∨ ds.length > 2 then none else
  match parseMinutesPart r1 with
  | none => none
  | some (mm, r2) => if r2 = [] then some (digitsToNat ds, mm) else none

/-- The slot whose clinic-local start reads `hh:mm` on the wall clock
(`getZonedParts(slot.start).hour/minute` comparison). -/
def slotLocalMatch (hh mm : Nat) (s : Slot) : Bool :=
  decide (localHour s.start = (hh : Int) ∧ localMinute s.start = (mm : Int))

/-- Second and third stages of `tryPickSlotFromUserText`: AM/PM-aware
parsing of the raw text, then the bare `^\d{1,2}(:\d{2})?$` fallback on the
normalised text. -/
def tryPickTime (lastSlots : List Slot) (userText t : String) : Option Slot :=
  let fb :=
    match parseBareTime t with
    | some (hh, mm) => lastSlots.find? (slotLocalMatch hh mm)
    | none => none
  match parseUserTimeTo24h userText with
  | some (hh, mm) =>
    match lastSlots.find? (slotLocalMatch hh mm) with
    | some s => some s
    | none => fb
  | none => fb

/-- `tryPickSlotFromUserText(session, userText)`: a pure-digit normalised
text in range `1..lastSlots.length` picks by 1-based ordinal; otherwise the
text is matched as a clock time against the slots' local start times. -/
def tryPickSlotFromUserText (lastSlots : List Slot) (userText : String) : Option Slot :=
  let t := normalizeText userText
  if t.data ≠ [] ∧ t.data.all Char.isDigit then
    let num := digitsToNat t.data
    if 1 ≤ num ∧ num ≤ lastSlots.length then lastSlots[num - 1]?
    else tryPickTime lastSlots userText t
  else tryPickTime lastSlots userText t

/-! ## Calendar event model and booking mutations
(`bookAppointmentTool`, `rescheduleAppointmentTool`, `cancelAppointmentTool`)

The external calendar is modelled as a partial map from event ids to
events.  `extendedProperties.private` is a loosely-keyed string map, kept
as an association list so that unknown keys survive the `{...priv, ...}`
spreads exactly as in JavaScript. -/

def PrivMap := List (String × String)
deriving DecidableEq, Repr

/-- Read a private-metadata key. -/
def privGet (p : PrivMap) (k : String) : Option String := List.lookup k p

/-- Write a private-metadata key (JavaScript object update / spread
override: an existing key keeps its position, a new key is appended). -/
def privSet : PrivMap → String → String → PrivMap
  | [], k, v => [(k, v)]
  | (k', v') :: rest, k, v =>
    if k' = k then (k, v) :: rest else (k', v') :: privSet rest k v

/-- A calendar event as the tools see it. -/
structure CalEvent where
  summary : String
  description : String
  start : Int
  stop : Int
  priv : PrivMap
deriving DecidableEq, Repr

def EventStore := String → Option CalEvent

def storeSet (st : EventStore) (id : String) (ev : CalEvent) : EventStore :=
  fun i => if i = id then some ev else st i

/-- `x || y` on JavaScript strings (empty string is falsy). -/
def jsOr (a b : String) : String := if a = "" then b else a

/-- Arguments of `rescheduleAppointmentTool`; the optional override fields
model `undefined` as `""` (both are falsy in the `||` chains). -/
structure RescheduleArgs where
  appointment_id : String
  new_slot_id : String
  new_start : Option Int
  new_end : Option Int
  service : String
  patient_name : String
  phone : String
  wa_id : String
deriving DecidableEq, Repr

/-- `String(override || priv[key] || "").trim()`. -/
def rescheduleMergedField (priv : PrivMap) (override key : String) : String :=
  jsTrim (jsOr override ((privGet priv key).getD ""))

/-- The `nextPriv` object written back by `rescheduleAppointmentTool`: the
spread of the existing metadata with the new slot id, both reminder flags
reset, and each of the four merge results written only when non-empty. -/
def rescheduleNextPriv (priv : PrivMap) (a : RescheduleArgs) : PrivMap :=
  let nextService := rescheduleMergedField priv a.service "service"
  let nextName := rescheduleMergedField priv a.patient_name "patient_name"
  let nextPhone := rescheduleMergedField priv a.phone "wa_phone"
  let nextWaId := rescheduleMergedField priv a.wa_id "wa_id"
  let p1 := privSet (privSet (privSet priv "slot_id" a.new_slot_id)
    "reminder24hSent" "false") "reminder2hSent" "false"
  let p2 := if nextService ≠ "" then privSet p1 "service" nextService else p1
  let p3 := if nextName ≠ "" then privSet p2 "patient_name" nextName else p2
  let p4 := if nextPhone ≠ "" then privSet p3 "wa_phone" nextPhone else p3
  if nextWaId ≠ "" then privSet p4 "wa_id" nextWaId else p4

/-- `rescheduleAppointmentTool`: fails when the new instants are missing or
the event cannot be fetched; otherwise merges overrides into the existing
private metadata (without discarding absent overrides), resets both
reminder flags, and patches summary/start/end/private.  Returns the store
after the patch together with `{appointment_id, new_start, new_end}`. -/
def rescheduleAppointmentTool (store : EventStore) (a : RescheduleArgs) :
    Option (EventStore × String × Int × Int) :=
  match a.new_start, a.new_end with
  | some ns, some ne =>
    match store a.appointment_id with
    | none => none
    | some ev =>
      let nextService := rescheduleMergedField ev.priv a.service "service"
      let nextName := rescheduleMergedField ev.priv a.patient_name "patient_name"
      let nextSummary :=
        if nextService ≠ "" ∧ nextName ≠ "" then
          "Cita - " ++ nextService ++ " - " ++ nextName
        else jsOr ev.summary "Cita"
      let ev' : CalEvent :=
        { summary := nextSummary, description := ev.description,
          start := ns, stop := ne, priv := rescheduleNextPriv ev.priv a }
      some (storeSet store a.appointment_id ev', a.appointment_id, ns, ne)
  | _, _ => none

/-- `cancelAppointmentTool({appointment_id, reason})`: fetches the event,
prepends `CANCELADA` to the summary, appends the reason to the description
and sets the private `status` to `cancelled`.  The event is patched, never
deleted. -/
def cancelAppointmentTool (store : EventStore) (appointment_id reason : String) :
    Option (EventStore × String) :=
  match store appointment_id with
  | none => none
  | some ev =>
    let ev' : CalEvent :=
      { summary := "CANCELADA - " ++ jsOr ev.summary "Cita",
        description := ev.description ++ "\n\nCancelación: " ++ reason,
        start := ev.start, stop := ev.stop,
        priv := privSet ev.priv "status" "cancelled" }
    some (storeSet store appointment_id ev', appointment_id)

/-! ## Reminder sweep (`reminderLoop`), per-event step

The loop body for one fetched event, with the environment toggles
`REMINDER_24H`/`REMINDER_2H` and the delivery outcomes of
`sendReminderWhatsAppToBestTarget` passed in.  Returns whether the
day-before and hours-before reminders were sent, and the private metadata
stored on the event afterwards (each successful send is followed by a
patch computed from the metadata read at the start of the body). -/
def reminderStep (now : Int) (r24 r2 ok24 ok2 : Bool)
    (priv : PrivMap) (startT : Option Int) : Bool × Bool × PrivMap :=
  if privGet priv "status" = some "cancelled" then (false, false, priv)
  else
    match privGet priv "wa_phone", startT with
    | some phone, some st =>
      if phone = "" then (false, false, priv)
      else
        let m := st - now
        let in24 := decide (m ≤ 25 * 60 ∧ m ≥ 23 * 60)
        let in2 := decide (m ≤ 135 ∧ m ≥ 90)
        let attempt24 := r24 && in24 && !(privGet priv "reminder24hSent" == some "true")
        let patched24 := attempt24 && ok24
        let attempt2 := r2 && in2 && !(privGet priv "reminder2hSent" == some "true")
        let patched2 := attempt2 && ok2
        let finalPriv :=
          if patched2 then privSet priv "reminder2hSent" "true"
          else if patched24 then privSet priv "reminder24hSent" "true"
          else priv
        (attempt24, attempt2, finalPriv)
    | _, _ => (false, false, priv)

/-! ## Session model and webhook handler (`app.post("/webhook")`)

The handler is embedded as a pure step function from the loaded session and
the extracted inbound text to the session that will be saved plus the list
of external effects, in the order the source performs them.  External
collaborators (calendar search by phone, busy ranges, the natural-language
date parser's clock readings, event-id generation, the LLM fallback) are
supplied through an oracle record.  The Spanish message templates are
abstracted as `OutMsg` constructors carrying the data interpolated into
them. -/

structure ReschedState where
  active : Bool
  appointment_id : String
  phone : String
  patient_name : String
  service : String
deriving DecidableEq, Repr

structure Booking where
  appointment_id : String
  start : Int
  stop : Int
  service : String
  patient_name : String
  phone : String
deriving DecidableEq, Repr

structure Session where
  messages : List (String × String)
  state : String
  lastSlots : List Slot
  selectedSlot : Option Slot
  pendingService : Option String
  pendingRange : Option (Int × Int)
  pendingName : Option String
  lastBooking : Option Booking
  greeted : Bool
  lastMsgId : Option String
  reschedule : ReschedState
deriving DecidableEq, Repr

def defaultReschedState : ReschedState :=
  { active := false, appointment_id := "", phone := "", patient_name := "", service := "" }

/-- `defaultSession()` (typed view). -/
def defaultSessionT : Session :=
  { messages := [], state := "idle", lastSlots := [], selectedSlot := none,
    pendingService := none, pendingRange := none, pendingName := none,
    lastBooking := none, greeted := false, lastMsgId := none,
    reschedule := defaultReschedState }

/-- The outbound message templates, one constructor per `sendWhatsAppText`
call site (the Spanish copy itself carries no logic). -/
inductive OutMsg
  | quickHelp
  | servicesEmoji
  | confirmBooking (b : Booking)
  | cancelled
  | askDayForReschedule (service : String)
  | newAppointmentIntro
  | thanksConfirm (b : Booking)
  | postBookingMenu
  | slotNotUnderstood
  | rescheduledConfirm (service : String) (start : Int)
  | slotSelected (start : Int)
  | askFullName
  | askPhone
  | bookedSummary (b : Booking)
  | incompletePhone
  | urgencias
  | askService
  | askDay (service : String)
  | noAvailability
  | slotsList (service : String) (slots : List Slot)
  | dayHelp
  | llmText (reply : String)
deriving DecidableEq, Repr

/-- External side effects, in program order. -/
inductive Effect
  | hubInbound (sender body : String)
  | sendText (dest : String) (m : OutMsg)
  | sendList (dest : String)
  | calFindByPhone (phone : String)
  | calCancel (appointment_id reason : String)
  | calReschedule (appointment_id new_slot_id : String) (new_start new_end : Int)
      (service patient_name phone wa_id : String)
  | calBook (patient_name phone slot_id service : String) (slot_start slot_end : Int)
      (wa_id : String)
  | llmCall
deriving DecidableEq, Repr

/-- Calendar-mutating effects. -/
def calendarMutation : Effect → Bool
  | Effect.calCancel _ _ => true
  | Effect.calReschedule _ _ _ _ _ _ _ _ => true
  | Effect.calBook _ _ _ _ _ _ _ => true
  | _ => false

/-- Results of external collaborators, fixed for one invocation. -/
structure Oracle where
  findByPhone : Option Booking
  busy : List (Int × Int)
  parseRange : String → Option (Int × Int)
  newEventId : String
  llmReply : String

structure HandlerOut where
  saved : Option Session
  effects : List Effect
  status : Nat
deriving Repr

/-- `String(x).replace(/[^\d]/g, "")`. -/
def onlyDigits (s : String) : String := String.mk (s.data.filter Char.isDigit)

/-- The `post_booking` branch (reached with `session.lastBooking` set). -/
def postBookingStep (waFrom userText tNorm : String) (wC wR wCf : Bool)
    (b : Booking) (s : Session) (e : List Effect) : HandlerOut :=
  if wCf then
    { saved := some s, effects := e ++ [Effect.sendText waFrom (OutMsg.confirmBooking b)],
      status := 200 }
  else if wC then
    let s' := { s with
      state := "idle", lastSlots := [], selectedSlot := none,
      pendingService := none, pendingRange := none, pendingName := none,
      lastBooking := none, reschedule := defaultReschedState }
    { saved := some s',
      effects := e ++ [Effect.calCancel b.appointment_id userText,
        Effect.sendText waFrom OutMsg.cancelled],
      status := 200 }
  else if wR then
    let resch : ReschedState :=
      { active := true, appointment_id := b.appointment_id,
        phone := jsOr b.phone (onlyDigits waFrom),
        patient_name := b.patient_name, service := b.service }
    let pendingService' := if resch.service ≠ "" then some resch.service else s.pendingService
    let s' := { s with
      reschedule := resch, pendingService := pendingService',
      state := "await_day", lastSlots := [], selectedSlot := none,
      pendingRange := none, pendingName := none }
    { saved := some s',
      effects := e ++ [Effect.sendText waFrom
        (OutMsg.askDayForReschedule (pendingService'.getD ""))],
      status := 200 }
  else if looksLikeNewAppointment tNorm then
    { saved := some { s with state := "idle", reschedule := defaultReschedState },
      effects := e ++ [Effect.sendText waFrom OutMsg.newAppointmentIntro,
        Effect.sendList waFrom],
      status := 200 }
  else if isThanks tNorm then
    { saved := some s, effects := e ++ [Effect.sendText waFrom (OutMsg.thanksConfirm b)],
      status := 200 }
  else
    { saved := some s, effects := e ++ [Effect.sendText waFrom OutMsg.postBookingMenu],
      status := 200 }

/-- The `await_slot_choice` branch. -/
def awaitSlotChoiceStep (waFrom userText : String) (s : Session) (e : List Effect) :
    HandlerOut :=
  match tryPickSlotFromUserText s.lastSlots userText with
  | none =>
    { saved := some s, effects := e ++ [Effect.sendText waFrom OutMsg.slotNotUnderstood],
      status := 200 }
  | some picked =>
    if s.reschedule.active && s.reschedule.appointment_id != "" then
      let nextService := jsOr (jsOr (s.pendingService.getD "") picked.service)
        s.reschedule.service
      let newBooking : Booking :=
        { appointment_id := s.reschedule.appointment_id,
          start := picked.start, stop := picked.stop, service := nextService,
          patient_name := jsOr s.reschedule.patient_name
            ((s.lastBooking.map Booking.patient_name).getD ""),
          phone := jsOr s.reschedule.phone (onlyDigits waFrom) }
      let s' := { s with
        lastBooking := some newBooking, state := "post_booking",
        lastSlots := [], selectedSlot := none, pendingRange := none,
        pendingName := none, reschedule := defaultReschedState }
      { saved := some s',
        effects := e ++ [Effect.calReschedule s.reschedule.appointment_id picked.slot_id
          picked.start picked.stop nextService s.reschedule.patient_name
          (jsOr s.reschedule.phone waFrom) waFrom,
          Effect.sendText waFrom (OutMsg.rescheduledConfirm nextService picked.start)],
        status := 200 }
    else
      { saved := some { s with selectedSlot := some picked, state := "await_name" },
        effects := e ++ [Effect.sendText waFrom (OutMsg.slotSelected picked.start)],
        status := 200 }

/-- The `await_name` branch (lines 1713-1722 of the source). -/
def awaitNameStep (waFrom userText tNorm : String) (s : Session) (e : List Effect) :
    HandlerOut :=
  if tNorm.length < 3 || ["si", "sí", "ok", "listo"].contains tNorm then
    { saved := some s, effects := e ++ [Effect.sendText waFrom OutMsg.askFullName],
      status := 200 }
  else
    { saved := some { s with pendingName := some userText, state := "await_phone" },
      effects := e ++ [Effect.sendText waFrom OutMsg.askPhone], status := 200 }

/-- The `await_phone` branch (books on success). -/
def awaitPhoneStep (waFrom userText : String) (slot : Slot) (pname : String)
    (s : Session) (e : List Effect) (o : Oracle) : HandlerOut :=
  let phoneDigits := onlyDigits userText
  if phoneDigits.length < 8 then
    { saved := some s, effects := e ++ [Effect.sendText waFrom OutMsg.incompletePhone],
      status := 200 }
  else
    let svc := jsOr (s.pendingService.getD "") slot.service
    let booked : Booking :=
      { appointment_id := o.newEventId, start := slot.start, stop := slot.stop,
        service := svc, patient_name := pname, phone := phoneDigits }
    let s' := { s with
      lastBooking := some booked, state := "post_booking",
      lastSlots := [], selectedSlot := none, pendingName := none,
      pendingRange := none, reschedule := defaultReschedState }
    { saved := some s',
      effects := e ++ [Effect.calBook pname phoneDigits slot.slot_id svc
        slot.start slot.stop waFrom,
        Effect.sendText waFrom (OutMsg.bookedSummary booked)],
      status := 200 }

/-- The fallback `callOpenAI` tail: the user turn and the model's reply are
appended to the session transcript and the reply is forwarded (tool-call
round-trips inside the collaborator are abstracted into the reply). -/
def llmFallbackStep (waFrom userText : String) (s : Session) (e : List Effect)
    (o : Oracle) : HandlerOut :=
  let reply := o.llmReply
  let s' := { s with messages := s.messages ++ [("user", userText), ("assistant", reply)] }
  if sIncludes (normalizeText reply) "servicio" then
    { saved := some s',
      effects := e ++ [Effect.llmCall, Effect.sendText waFrom (OutMsg.llmText reply),
        Effect.sendText waFrom OutMsg.servicesEmoji, Effect.sendList waFrom],
      status := 200 }
  else
    { saved := some s',
      effects := e ++ [Effect.llmCall, Effect.sendText waFrom (OutMsg.llmText reply)],
      status := 200 }

/-- The `!serviceKey && session.pendingService` branch: try a date range
with the pending service. -/
def pendingServiceStep (waFrom userText : String) (p : String) (s : Session)
    (e : List Effect) (o : Oracle) : HandlerOut :=
  match o.parseRange userText with
  | some r =>
    let slots := getAvailableSlots p r.1 r.2 o.busy
    if slots.isEmpty then
      { saved := some s, effects := e ++ [Effect.sendText waFrom OutMsg.noAvailability],
        status := 200 }
    else
      { saved := some { s with
          pendingRange := some r, lastSlots := slots,
          state := "await_slot_choice" },
        effects := e ++ [Effect.sendText waFrom (OutMsg.slotsList p slots)],
        status := 200 }
  | none =>
    if s.state == "await_day" then
      { saved := some s, effects := e ++ [Effect.sendText waFrom OutMsg.dayHelp],
        status := 200 }
    else llmFallbackStep waFrom userText s e o

/-- The `if (serviceKey)` branch: remember the service, then either ask for
a day or offer slots for the parsed range. -/
def serviceKeyStep (waFrom userText : String) (k : String) (s : Session)
    (e : List Effect) (o : Oracle) : HandlerOut :=
  let s1 := { s with pendingService := some k }
  match o.parseRange userText with
  | none =>
    { saved := some { s1 with state := "await_day" },
      effects := e ++ [Effect.sendText waFrom (OutMsg.askDay k)], status := 200 }
  | some r =>
    let slots := getAvailableSlots k r.1 r.2 o.busy
    if slots.isEmpty then
      { saved := some { s1 with state := "await_day" },
        effects := e ++ [Effect.sendText waFrom OutMsg.noAvailability], status := 200 }
    else
      { saved := some { s1 with
          pendingRange := some r, lastSlots := slots,
          state := "await_slot_choice" },
        effects := e ++ [Effect.sendText waFrom (OutMsg.slotsList k slots)],
        status := 200 }

/-- Everything below the four stateful branches: services-menu request,
service/urgency detection, date-range retry, LLM fallback. -/
def detectionStep (waFrom userText tNorm : String) (s : Session) (e : List Effect)
    (o : Oracle) : HandlerOut :=
  if sIncludes tNorm "servicios" || sIncludes tNorm "cuales servicios" ||
      sIncludes tNorm "qué servicios" || sIncludes tNorm "que servicios" ||
      sIncludes tNorm "menu" || sIncludes tNorm "menú" then
    { saved := some s,
      effects := e ++ [Effect.sendText waFrom OutMsg.servicesEmoji, Effect.sendList waFrom],
      status := 200 }
  else
    match detectServiceKeyFromUser userText with
    | some k =>
      if k = "urgencias" then
        { saved := some s, effects := e ++ [Effect.sendText waFrom OutMsg.urgencias],
          status := 200 }
      else serviceKeyStep waFrom userText k s e o
    | none =>
      if sIncludes tNorm "agendar" || sIncludes tNorm "cita" || sIncludes tNorm "reservar" then
        { saved := some s,
          effects := e ++ [Effect.sendText waFrom OutMsg.askService,
            Effect.sendText waFrom OutMsg.servicesEmoji, Effect.sendList waFrom],
          status := 200 }
      else
        match s.pendingService with
        | some p => pendingServiceStep waFrom userText p s e o
        | none => llmFallbackStep waFrom userText s e o

/-- Dispatch on the four stateful branches in source order, then fall into
`detectionStep`. -/
def stateDispatch (waFrom userText tNorm : String) (wC wR wCf : Bool)
    (s : Session) (e : List Effect) (o : Oracle) : HandlerOut :=
  let afterPB : HandlerOut :=
    if s.state == "await_slot_choice" && !s.lastSlots.isEmpty then
      awaitSlotChoiceStep waFrom userText s e
    else if s.state == "await_name" && s.selectedSlot.isSome then
      awaitNameStep waFrom userText tNorm s e
    else
      match s.selectedSlot, s.pendingName with
      | some sl, some nm =>
        if s.state == "await_phone" then awaitPhoneStep waFrom userText sl nm s e o
        else detectionStep waFrom userText tNorm s e o
      | _, _ => detectionStep waFrom userText tNorm s e o
  match s.lastBooking with
  | some b => if s.state == "post_booking" then
      postBookingStep waFrom userText tNorm wC wR wCf b s e
    else afterPB
  | none => afterPB

/-- The webhook body after signature verification, extraction, session
load, de-duplication and the empty-text check: inbound hub report, the
quick-intent calendar lookup, greeting handling and the state dispatch. -/
def webhookMain (waFrom userText : String) (s1 : Session) (o : Oracle) : HandlerOut :=
  let tNorm := normalizeText userText
  let e0 : List Effect := [Effect.hubInbound waFrom userText]
  let wantsCancel := looksLikeCancel tNorm || isChoice tNorm 3
  let wantsReschedule := looksLikeReschedule tNorm || isChoice tNorm 2
  let wantsConfirm := looksLikeConfirm tNorm || isChoice tNorm 1
  let hijack := (wantsCancel || wantsReschedule || wantsConfirm) &&
    s1.lastBooking.isNone
  let s2e : Session × List Effect :=
    if hijack then
      match o.findByPhone with
      | some fb => ({ s1 with lastBooking := some fb, state := "post_booking" },
          [Effect.calFindByPhone waFrom])
      | none => (s1, [Effect.calFindByPhone waFrom])
    else (s1, [])
  let s2 := s2e.1
  let e1 := e0 ++ s2e.2
  let hasEarlyIntent := (detectServiceKeyFromUser userText).isSome ||
    (o.parseRange userText).isSome || sIncludes tNorm "cita" ||
    sIncludes tNorm "agendar" || sIncludes tNorm "reservar" ||
    sIncludes tNorm "reprogram" || sIncludes tNorm "cancel"
  if s2.greeted && s2.state == "idle" && isGreeting tNorm && !hasEarlyIntent then
    { saved := some s2, effects := e1 ++ [Effect.sendText waFrom OutMsg.quickHelp],
      status := 200 }
  else if !s2.greeted && s2.state == "idle" && isGreeting tNorm && !hasEarlyIntent then
    { saved := some { s2 with greeted := true },
      effects := e1 ++ [Effect.sendText waFrom OutMsg.servicesEmoji,
        Effect.sendList waFrom],
      status := 200 }
  else
    let s3 := if !s2.greeted && s2.state == "idle" then { s2 with greeted := true }
      else s2
    stateDispatch waFrom userText tNorm wantsCancel wantsReschedule wantsConfirm
      s3 e1 o

/-- The webhook POST handler from the point where a message with a sender
has been extracted: de-duplication by message id, then the main body.
`saved` is the session passed to `saveSession` in the `finally` block
(`none` when the handler exits before a session is loaded). -/
def handleWebhook (waFrom : String) (msgId : Option String) (userTextRaw : String)
    (session : Session) (o : Oracle) : HandlerOut :=
  if waFrom = "" then { saved := none, effects := [], status := 200 }
  else
    let s0 := session
    let dup := match msgId with
      | some m => s0.lastMsgId == some m
      | none => false
    if dup then { saved := some s0, effects := [], status := 200 }
    else
      let s1 := match msgId with
        | some m => { s0 with lastMsgId := some m }
        | none => s0
      let userText := jsTrim userTextRaw
      if userText = "" then { saved := some s1, effects := [], status := 200 }
      else webhookMain waFrom userText s1 o

/-! ## Raw session persistence (`sanitizeSession`, `getSession`)

The session is stored as JSON; `getSession` parses it with
`safeJson(raw, defaultSession())` and runs `sanitizeSession`, which must
tolerate arbitrary stored shapes.  JSON values are modelled explicitly;
note that in JavaScript `typeof x === "object"` also holds for arrays,
which carry no (relevant) named properties, so an array input behaves like
an object with no fields for every named-field access. -/

inductive JVal
  | jnull
  | jbool (b : Bool)
  | jnum (n : Int)
  | jstr (s : String)
  | jarr (xs : List JVal)
  | jobj (fields : List (String × JVal))

/-- Property read on a JavaScript object. -/
def jLookup (f : List (String × JVal)) (k : String) : Option JVal := List.lookup k f

/-- Property write on a JavaScript object. -/
def jSet : List (String × JVal) → String → JVal → List (String × JVal)
  | [], k, v => [(k, v)]
  | (k', v') :: rest, k, v =>
    if k' = k then (k, v) :: rest else (k', v') :: jSet rest k v

/-- `Array.prototype.slice(-n)`. -/
def takeLast (n : Nat) (xs : List JVal) : List JVal := xs.drop (xs.length - n)

/-- The `reschedule` sub-object of `defaultSession()`. -/
def defaultReschedJ : JVal :=
  JVal.jobj [("active", JVal.jbool false), ("appointment_id", JVal.jstr ""),
    ("phone", JVal.jstr ""), ("patient_name", JVal.jstr ""),
    ("service", JVal.jstr "")]

/-- `defaultSession()` as stored JSON. -/
def defaultSessionJ : JVal :=
  JVal.jobj [("messages", JVal.jarr []), ("state", JVal.jstr "idle"),
    ("lastSlots", JVal.jarr []), ("selectedSlot", JVal.jnull),
    ("pendingService", JVal.jnull), ("pendingRange", JVal.jnull),
    ("pendingName", JVal.jnull), ("lastBooking", JVal.jnull),
    ("greeted", JVal.jbool false), ("lastMsgId", JVal.jnull),
    ("reschedule", defaultReschedJ)]

/-- The per-field repair of `session.reschedule`: each of the five fields
is reset to its default unless it already has the expected type. -/
def fixResched (rf : List (String × JVal)) : List (String × JVal) :=
  let r1 := match jLookup rf "active" with
    | some (JVal.jbool _) => rf
    | _ => jSet rf "active" (JVal.jbool false)
  let r2 := match jLookup rf "appointment_id" with
    | some (JVal.jstr _) => r1
    | _ => jSet r1 "appointment_id" (JVal.jstr "")
  let r3 := match jLookup rf "phone" with
    | some (JVal.jstr _) => r2
    | _ => jSet r2 "phone" (JVal.jstr "")
  let r4 := match jLookup rf "patient_name" with
    | some (JVal.jstr _) => r3
    | _ => jSet r3 "patient_name" (JVal.jstr "")
  match jLookup rf "service" with
  | some (JVal.jstr _) => r4
  | _ => jSet r4 "service" (JVal.jstr "")

/-- The field repairs of `sanitizeSession` on an object's properties.  Each
repair reads its own key of the incoming object (the source mutates the
object in place, but every repair reads a key no earlier repair writes, so
reading from the original is equivalent). -/
def sanitizeFields (f : List (String × JVal)) : List (String × JVal) :=
  let msgs := match jLookup f "messages" with
    | some (JVal.jarr xs) => xs
    | _ => []
  let f1 := jSet f "messages" (JVal.jarr (takeLast 20 msgs))
  let slots := match jLookup f "lastSlots" with
    | some (JVal.jarr xs) => xs
    | _ => []
  let f2 := jSet f1 "lastSlots" (JVal.jarr (slots.take 10))
  let f3 := match jLookup f "reschedule" with
    | some (JVal.jobj rf) => jSet f2 "reschedule" (JVal.jobj (fixResched rf))
    | some (JVal.jarr _) => jSet f2 "reschedule" (JVal.jobj (fixResched []))
    | _ => jSet f2 "reschedule" defaultReschedJ
  let f4 := match jLookup f "state" with
    | some (JVal.jstr _) => f3
    | _ => jSet f3 "state" (JVal.jstr "idle")
  match jLookup f "greeted" with
  | some (JVal.jbool _) => f4
  | _ => jSet f4 "greeted" (JVal.jbool false)

/-- `sanitizeSession(session)`: a non-object (including `null`, via the
`!session` guard) is replaced wholesale by the default session; otherwise
the named fields are repaired in place. -/
def sanitizeSessionJ : JVal → JVal
  | JVal.jobj f => JVal.jobj (sanitizeFields f)
  | JVal.jarr _ => JVal.jobj (sanitizeFields [])
  | _ => defaultSessionJ

/-- `getSession` on the persistent path: a missing key or unparseable JSON
(`raw = none`) falls back to `defaultSession()`, and the result is always
sanitised. -/
def getSessionJ (raw : Option JVal) : JVal :=
  sanitizeSessionJ (raw.getD defaultSessionJ)

/-! ## Concrete scenario used by the witnesses and counterexamples

A Monday of the local calendar (day index 4 of the epoch, 1970-01-05) with
the default work hours; `demoFrom`/`demoTo` span that local day.  All
instants are minutes since the epoch. -/

/-- A 30-minute slot starting at local minute-of-day `c` on local day 4. -/
def demoSlotAt (c : Nat) : Slot :=
  { slot_id := "slot_" ++ toString (utcOfLocal (4 * 1440 + (c : Int))),
    service := "ortodoncia",
    start := utcOfLocal (4 * 1440 + (c : Int)),
    stop := utcOfLocal (4 * 1440 + (c : Int)) + 30 }

/-- Three offered slots at 9:00, 9:15 and 9:30 local time. -/
def demoSlots : List Slot := [demoSlotAt 540, demoSlotAt 555, demoSlotAt 570]

def demoFrom : Int := 6000
def demoTo : Int := 7440

/-- An oracle for handler scenarios: no appointment found by phone, no busy
ranges, no parsed date range. -/
def demoOracle : Oracle :=
  { findByPhone := none, busy := [], parseRange := fun _ => none,
    newEventId := "evt_1", llmReply := "hola" }

/-- A session sitting in `await_name` with a selected slot. -/
def demoAwaitNameSession : Session :=
  { defaultSessionT with
    state := "await_name", selectedSlot := some (demoSlotAt 540), greeted := true }

/-- A stored calendar event with trimmed private metadata. -/
def demoEvent : CalEvent :=
  { summary := "Cita - ortodoncia - Ana Diaz",
    description := "Paciente: Ana Diaz",
    start := 6540, stop := 6570,
    priv := [("wa_phone", "18095551234"), ("wa_id", "18095551234"),
      ("patient_name", "Ana Diaz"), ("service", "ortodoncia"),
      ("slot_id", "slot_6540"), ("reminder24hSent", "true"),
      ("reminder2hSent", "false")] }

def demoStore : EventStore := fun i => if i = "apt1" then some demoEvent else none

/-- The stored value of a private-metadata key is unaffected by `trim`
(all writers of the metadata store trimmed strings: names come from trimmed
message text, phones are digit strings, services are catalog keys). -/
def trimInvOpt (o : Option String) : Prop := ∀ v, o = some v → jsTrim v = v

/-! ## Lemmas about the availability engine -/

theorem cursorSlotsF_mem {fuel cursor endMin dur c : Nat}
    (h : c ∈ cursorSlotsF fuel cursor endMin dur) :
    cursor ≤ c ∧ c + dur ≤ endMin ∧ (c - cursor) % SLOT_STEP_MIN = 0 := by
  induction fuel generalizing cursor with
  | zero => simp [cursorSlotsF] at h
  | succ n ih =>
    simp only [cursorSlotsF] at h
    by_cases hc : cursor + dur ≤ endMin
    · rw [if_pos hc] at h
      rcases List.mem_cons.mp h with rfl | hm
      · exact ⟨Nat.le_refl _, hc, by simp⟩
      · obtain ⟨h1, h2, h3⟩ := ih hm
        simp only [SLOT_STEP_MIN] at h1 h3 ⊢
        exact ⟨by omega, h2, by omega⟩
    · rw [if_neg hc] at h
      simp at h

theorem dayCursors_mem {sMin eMin dur c : Nat} (h : c ∈ dayCursors sMin eMin dur) :
    sMin ≤ c ∧ c + dur ≤ eMin ∧ c % SLOT_STEP_MIN = 0 := by
  obtain ⟨h1, h2, h3⟩ := cursorSlotsF_mem h
  simp only [ceilToStep, SLOT_STEP_MIN] at h1 h3 ⊢
  omega

theorem WORK_HOURS_bounds {w : Nat} {p : Nat × Nat} (h : WORK_HOURS w = some p) :
    480 ≤ p.1 ∧ p.2 ≤ 1020 := by
  simp only [WORK_HOURS] at h
  split at h
  · cases h; simp
  · split at h
    · cases h; simp
    · cases h

theorem slotsForDay_mem {service : String} {tFrom tTo : Int} {dur : Nat} {d : Int}
    {s : Slot} (h : s ∈ slotsForDay service tFrom tTo dur d) :
    s.service = service ∧ tFrom ≤ s.start ∧ s.stop ≤ tTo ∧
      s.stop = s.start + (dur : Int) ∧ localDay s.start = d ∧
      (∃ o cl, WORK_HOURS (isoWeekdayOfDay d) = some (o, cl) ∧
        (o : Int) ≤ localMinOfDay s.start ∧
        localMinOfDay s.start + (dur : Int) ≤ (cl : Int) ∧
        localMinOfDay s.start % (SLOT_STEP_MIN : Int) = 0) := by
  unfold slotsForDay at h
  split at h
  · simp at h
  case _ o cl hwh =>
    rw [List.mem_filterMap] at h
    obtain ⟨c, hc, heq⟩ := h
    obtain ⟨hc1, hc2, hc3⟩ := dayCursors_mem hc
    have hb := WORK_HOURS_bounds hwh
    simp only at heq
    split at heq
    case _ hcond =>
      cases heq
      obtain ⟨hf, ht⟩ := hcond
      have hstart : utcOfLocal (d * 1440 + (c : Int)) + tzOffsetMin = d * 1440 + (c : Int) := by
        simp [utcOfLocal]
      have hcr : (c : Int) < 1440 := by
        have : c ≤ 1020 := by omega
        omega
      refine ⟨rfl, hf, ht, rfl, ?_, o, cl, hwh, ?_, ?_, ?_⟩
      · simp only [localDay, localOf, utcOfLocal, tzOffsetMin]
        have hc0 : (0 : Int) ≤ (c : Int) := Int.natCast_nonneg c
        omega
      · simp only [localMinOfDay, localOf, utcOfLocal, tzOffsetMin]
        have hc0 : (0 : Int) ≤ (c : Int) := Int.natCast_nonneg c
        have : (d * 1440 + (c : Int) + -240 + 240) % 1440 = (c : Int) := by omega
        omega
      · simp only [localMinOfDay, localOf, utcOfLocal, tzOffsetMin]
        have hc0 : (0 : Int) ≤ (c : Int) := Int.natCast_nonneg c
        omega
      · simp only [localMinOfDay, localOf, utcOfLocal, tzOffsetMin, SLOT_STEP_MIN] at hc3 ⊢
        have hc0 : (0 : Int) ≤ (c : Int) := Int.natCast_nonneg c
        omega
    · cases heq

theorem mem_getAvailableSlots {service : String} {tFrom tTo : Int}
    {busy : List (Int × Int)} {s : Slot}
    (h : s ∈ getAvailableSlots service tFrom tTo busy) :
    s ∈ buildCandidateSlotsZoned service tFrom tTo (serviceDurationOf service) ∧
      (busy.any fun b => overlaps s.start s.stop b.1 b.2) = false := by
  unfold getAvailableSlots at h
  have h' := List.mem_of_mem_take h
  rw [List.mem_filter] at h'
  refine ⟨h'.1, ?_⟩
  have := h'.2
  simpa using this

theorem mem_candidates_spec {service : String} {tFrom tTo : Int} {dur : Nat} {s : Slot}
    (h : s ∈ buildCandidateSlotsZoned service tFrom tTo dur) :
    s.service = service ∧ tFrom ≤ s.start ∧ s.stop ≤ tTo ∧
      s.stop = s.start + (dur : Int) ∧ slotAlignedInOpenWindow dur s = true := by
  unfold buildCandidateSlotsZoned at h
  rw [List.mem_flatMap] at h
  obtain ⟨d, _, hs⟩ := h
  obtain ⟨h1, h2, h3, h4, h5, o, cl, hwh, ha, hb, hm⟩ := slotsForDay_mem hs
  refine ⟨h1, h2, h3, h4, ?_⟩
  unfold slotAlignedInOpenWindow
  rw [h5, hwh]
  simp only [decide_eq_true_eq]
  exact ⟨ha, hb, hm⟩

/-- C1: for every availability query with `from < to`, every returned slot
lies inside `[from, to]`, lasts exactly the service's configured minutes,
starts step-aligned inside its day's open window, and at most 8 slots are
returned. -/
theorem availableSlots_C1 (service : String) (tFrom tTo : Int)
    (busy : List (Int × Int)) (hlt : tFrom < tTo) :
    (getAvailableSlots service tFrom tTo busy).length ≤ 8 ∧
      ∀ s ∈ getAvailableSlots service tFrom tTo busy,
        tFrom ≤ s.start ∧ s.stop ≤ tTo ∧
        s.stop - s.start = (serviceDurationOf service : Int) ∧
        slotAlignedInOpenWindow (serviceDurationOf service) s = true := by
  constructor
  · unfold getAvailableSlots
    exact List.length_take_le 8 _
  · intro s hs
    obtain ⟨hcand, _⟩ := mem_getAvailableSlots hs
    obtain ⟨_, h2, h3, h4, h5⟩ := mem_candidates_spec hcand
    exact ⟨h2, h3, by omega, h5⟩

/-- Witness for C1 at a concrete query (a Monday of the local calendar) and
the concrete 8:00 slot it returns. -/
theorem availableSlots_C1_witness :
    demoFrom < demoTo ∧
      (getAvailableSlots "ortodoncia" demoFrom demoTo []).length ≤ 8 ∧
      demoFrom ≤ (demoSlotAt 480).start ∧ (demoSlotAt 480).stop ≤ demoTo ∧
      (demoSlotAt 480).stop - (demoSlotAt 480).start =
        (serviceDurationOf "ortodoncia" : Int) ∧
      slotAlignedInOpenWindow (serviceDurationOf "ortodoncia") (demoSlotAt 480) = true := by
  have h := availableSlots_C1 "ortodoncia" demoFrom demoTo [] (by decide)
  have hm : demoSlotAt 480 ∈ getAvailableSlots "ortodoncia" demoFrom demoTo [] := by decide
  obtain ⟨h1, h2, h3, h4⟩ := h.2 (demoSlotAt 480) hm
  exact ⟨by decide, h.1, h1, h2, h3, h4⟩

/-- C2: no returned slot overlaps any busy range supplied for the same
window, with `overlap(a,b) ⇔ a.start < b.end ∧ a.end > b.start`. -/
theorem availableSlots_no_busy_overlap_C2 (service : String) (tFrom tTo : Int)
    (busy : List (Int × Int)) :
    ∀ s ∈ getAvailableSlots service tFrom tTo busy,
      ∀ b ∈ busy, overlaps s.start s.stop b.1 b.2 = false := by
  intro s hs b hb
  obtain ⟨_, hany⟩ := mem_getAvailableSlots hs
  rw [List.any_eq_false] at hany
  simpa using hany b hb

/-- Witness for C2: a concrete query with one busy range; the returned
8:00 slot does not overlap it. -/
theorem availableSlots_no_busy_overlap_C2_witness :
    overlaps (demoSlotAt 480).start (demoSlotAt 480).stop 6540 6600 = false :=
  availableSlots_no_busy_overlap_C2 "ortodoncia" demoFrom demoTo [(6540, 6600)]
    (demoSlotAt 480) (by decide) (6540, 6600) (by decide)

/-- C8 counterexample: `getAvailableSlotsTool` never replaces the
caller-supplied range.  For the concrete instant `now = 1000000` the range
`[demoFrom, demoTo]` lies entirely in the past, yet the query returns a
non-empty slot list whose members all end inside that past range — not a
forward-looking default window. -/
theorem pastRange_not_replaced_C8_cex :
    demoTo < (1000000 : Int) ∧
      getAvailableSlots "ortodoncia" demoFrom demoTo [] ≠ [] ∧
      ∀ s ∈ getAvailableSlots "ortodoncia" demoFrom demoTo [], s.stop ≤ demoTo := by
  refine ⟨by decide, by decide, by decide⟩

/-- C8 (amended): the caller-supplied range is always used as-is; every
returned slot lies inside `[from, to]` regardless of how the range relates
to the current time, so a range entirely in the past yields only slots in
that past range (possibly none) and no forward-looking default window is
substituted. -/
theorem availableSlots_range_as_is_C8 (service : String) (tFrom tTo : Int)
    (busy : List (Int × Int)) :
    ∀ s ∈ getAvailableSlots service tFrom tTo busy,
      tFrom ≤ s.start ∧ s.stop ≤ tTo := by
  intro s hs
  obtain ⟨hcand, _⟩ := mem_getAvailableSlots hs
  obtain ⟨_, h2, h3, _, _⟩ := mem_candidates_spec hcand
  exact ⟨h2, h3⟩

/-- Witness for the amended C8 at the past-range query and the concrete
8:00 slot it returns. -/
theorem availableSlots_range_as_is_C8_witness :
    demoFrom ≤ (demoSlotAt 480).start ∧ (demoSlotAt 480).stop ≤ demoTo :=
  availableSlots_range_as_is_C8 "ortodoncia" demoFrom demoTo []
    (demoSlotAt 480) (by decide)

/-! ## Slot choice (C3) -/

/-- C3 counterexample: a bare number is *not* always interpreted only as an
ordinal.  With three offered slots (9:00, 9:15, 9:30 local) the bare input
`"9"` is out of ordinal range, falls through to time parsing, and selects
the 9:00 slot by *hour* — refuting "an ambiguous bare number is only ever
interpreted as a 1-based ordinal into lastSlots, never as an hour". -/
theorem slotChoice_C3_cex :
    tryPickSlotFromUserText demoSlots "9" = some (demoSlotAt 540) ∧
      demoSlots.length = 3 ∧
      localHour (demoSlotAt 540).start = 9 ∧
      localMinute (demoSlotAt 540).start = 0 :=
  ⟨by decide, by decide, by decide, by decide⟩

/-- C3 (amended): in `awaiting_slot_choice`, `"3"` with at least 3 offered
slots selects the 3rd slot; `"10:00 am"` selects exactly the first slot
whose clinic-local start is 10:00; `"3:15 pm"` is never parsed as ordinal 3
(it selects exactly the first slot whose local start is 15:15, if any);
and a bare number *within* `1..lastSlots.length` is interpreted only as a
1-based ordinal (a bare number outside that range falls through to clock
-time matching and may select a slot by hour). -/
theorem slotChoice_C3_amended :
    (∀ slots : List Slot, 3 ≤ slots.length →
      tryPickSlotFromUserText slots "3" = slots[2]?) ∧
    (∀ slots : List Slot,
      tryPickSlotFromUserText slots "10:00 am" = slots.find? (slotLocalMatch 10 0)) ∧
    (∀ slots : List Slot,
      tryPickSlotFromUserText slots "3:15 pm" = slots.find? (slotLocalMatch 15 15)) ∧
    (∀ (slots : List Slot) (t : String),
      (normalizeText t).data ≠ [] →
      (normalizeText t).data.all Char.isDigit = true →
      1 ≤ digitsToNat (normalizeText t).data →
      digitsToNat (normalizeText t).data ≤ slots.length →
      tryPickSlotFromUserText slots t = slots[digitsToNat (normalizeText t).data - 1]?) := by
  refine ⟨?_, ?_, ?_, ?_⟩
  · intro slots h3
    have e : normalizeText "3" = "3" := rfl
    simp only [tryPickSlotFromUserText, e]
    rw [if_pos ⟨by decide, by decide⟩]
    have ed : digitsToNat ("3" : String).data = 3 := rfl
    rw [ed, if_pos ⟨by decide, h3⟩]
  · intro slots
    have e : normalizeText "10:00 am" = "10:00 am" := rfl
    simp only [tryPickSlotFromUserText, e]
    rw [if_neg (by decide)]
    have ep : parseUserTimeTo24h "10:00 am" = some (10, 0) := rfl
    have eb : parseBareTime "10:00 am" = none := rfl
    simp only [tryPickTime, ep, eb]
    cases hf : slots.find? (slotLocalMatch 10 0) <;> simp [hf]
  · intro slots
    have e : normalizeText "3:15 pm" = "3:15 pm" := rfl
    simp only [tryPickSlotFromUserText, e]
    rw [if_neg (by decide)]
    have ep : parseUserTimeTo24h "3:15 pm" = some (15, 15) := rfl
    have eb : parseBareTime "3:15 pm" = none := rfl
    simp only [tryPickTime, ep, eb]
    cases hf : slots.find? (slotLocalMatch 15 15) <;> simp [hf]
  · intro slots t hne hall h1 hle
    simp only [tryPickSlotFromUserText]
    rw [if_pos ⟨hne, hall⟩, if_pos ⟨h1, hle⟩]

/-- Witness for the amended C3, at the concrete 9:00/9:15/9:30 slot list. -/
theorem slotChoice_C3_amended_witness :
    tryPickSlotFromUserText demoSlots "3" = demoSlots[2]? ∧
      tryPickSlotFromUserText demoSlots "10:00 am" = demoSlots.find? (slotLocalMatch 10 0) ∧
      tryPickSlotFromUserText demoSlots "3:15 pm" = demoSlots.find? (slotLocalMatch 15 15) ∧
      tryPickSlotFromUserText demoSlots "2" =
        demoSlots[digitsToNat (normalizeText "2").data - 1]? :=
  ⟨slotChoice_C3_amended.1 demoSlots (by decide),
   slotChoice_C3_amended.2.1 demoSlots,
   slotChoice_C3_amended.2.2.1 demoSlots,
   slotChoice_C3_amended.2.2.2 demoSlots "2" (by decide) (by decide) (by decide) (by decide)⟩

/-! ## Private-metadata map lemmas -/

theorem privGet_privSet (p : PrivMap) (k v k' : String) :
    privGet (privSet p k v) k' = if k' = k then some v else privGet p k' := by
  induction p with
  | nil =>
    by_cases h : k' = k
    · subst h; simp [privSet, privGet, List.lookup]
    · have hb : (k' == k) = false := by simpa using h
      simp [privSet, privGet, List.lookup, hb, h]
  | cons hd tl ih =>
    obtain ⟨a, b⟩ := hd
    by_cases h : a = k
    · subst h
      by_cases h2 : k' = a
      · subst h2; simp [privSet, privGet, List.lookup]
      · have hb : (k' == a) = false := by simpa using h2
        simp [privSet, privGet, List.lookup, hb, h2]
    · by_cases h2 : k' = a
      · subst h2
        have hkk : ¬ k' = k := fun he => h he.symm.symm
        simp [privSet, privGet, List.lookup, h, hkk]
      · have hb : (k' == a) = false := by simpa using h2
        simp only [privSet, if_neg h, privGet, List.lookup, hb]
        exact ih

theorem storeSet_self (st : EventStore) (id : String) (ev : CalEvent) :
    storeSet st id ev id = some ev := by
  simp [storeSet]

theorem storeSet_other (st : EventStore) (id : String) (ev : CalEvent)
    (i : String) (hi : i ≠ id) : storeSet st id ev i = st i := by
  simp [storeSet, hi]

theorem rescheduleNextPriv_flag24 (priv : PrivMap) (a : RescheduleArgs) :
    privGet (rescheduleNextPriv priv a) "reminder24hSent" = some "false" := by
  simp only [rescheduleNextPriv]
  split_ifs <;> simp [privGet_privSet]

theorem rescheduleNextPriv_flag2 (priv : PrivMap) (a : RescheduleArgs) :
    privGet (rescheduleNextPriv priv a) "reminder2hSent" = some "false" := by
  simp only [rescheduleNextPriv]
  split_ifs <;> simp [privGet_privSet]

theorem rescheduleNextPriv_keeps_service (priv : PrivMap) (a : RescheduleArgs)
    (h : a.service = "") (ht : trimInvOpt (privGet priv "service")) :
    privGet (rescheduleNextPriv priv a) "service" = privGet priv "service" := by
  simp only [rescheduleNextPriv, rescheduleMergedField, h]
  have hO : ∀ x : String, jsOr "" x = x := fun x => by simp [jsOr]
  simp only [hO]
  cases hsv : privGet priv "service" with
  | none =>
    simp only [hsv, Option.getD_none]
    split_ifs <;> simp_all [privGet_privSet, show jsTrim "" = "" from rfl]
  | some v =>
    have hv : jsTrim v = v := ht v hsv
    simp only [hsv, Option.getD_some, hv]
    split_ifs <;> simp_all [privGet_privSet]

theorem rescheduleNextPriv_keeps_name (priv : PrivMap) (a : RescheduleArgs)
    (h : a.patient_name = "") (ht : trimInvOpt (privGet priv "patient_name")) :
    privGet (rescheduleNextPriv priv a) "patient_name" = privGet priv "patient_name" := by
  simp only [rescheduleNextPriv, rescheduleMergedField, h]
  have hO : ∀ x : String, jsOr "" x = x := fun x => by simp [jsOr]
  simp only [hO]
  cases hsv : privGet priv "patient_name" with
  | none =>
    simp only [hsv, Option.getD_none]
    split_ifs <;> simp_all [privGet_privSet, show jsTrim "" = "" from rfl]
  | some v =>
    have hv : jsTrim v = v := ht v hsv
    simp only [hsv, Option.getD_some, hv]
    split_ifs <;> simp_all [privGet_privSet]

theorem rescheduleNextPriv_keeps_phone (priv : PrivMap) (a : RescheduleArgs)
    (h : a.phone = "") (ht : trimInvOpt (privGet priv "wa_phone")) :
    privGet (rescheduleNextPriv priv a) "wa_phone" = privGet priv "wa_phone" := by
  simp only [rescheduleNextPriv, rescheduleMergedField, h]
  have hO : ∀ x : String, jsOr "" x = x := fun x => by simp [jsOr]
  simp only [hO]
  cases hsv : privGet priv "wa_phone" with
  | none =>
    simp only [hsv, Option.getD_none]
    split_ifs <;> simp_all [privGet_privSet, show jsTrim "" = "" from rfl]
  | some v =>
    have hv : jsTrim v = v := ht v hsv
    simp only [hsv, Option.getD_some, hv]
    split_ifs <;> simp_all [privGet_privSet]

theorem rescheduleNextPriv_keeps_waid (priv : PrivMap) (a : RescheduleArgs)
    (h : a.wa_id = "") (ht : trimInvOpt (privGet priv "wa_id")) :
    privGet (rescheduleNextPriv priv a) "wa_id" = privGet priv "wa_id" := by
  simp only [rescheduleNextPriv, rescheduleMergedField, h]
  have hO : ∀ x : String, jsOr "" x = x := fun x => by simp [jsOr]
  simp only [hO]
  cases hsv : privGet priv "wa_id" with
  | none =>
    simp only [hsv, Option.getD_none]
    split_ifs <;> simp_all [privGet_privSet, show jsTrim "" = "" from rfl]
  | some v =>
    have hv : jsTrim v = v := ht v hsv
    simp only [hsv, Option.getD_some, hv]
    split_ifs <;> simp_all [privGet_privSet]

/-- C4: a reschedule with present new instants returns the same
appointment id, rewrites the event's start/end to the new slot, resets both
reminder-sent flags, and every private metadata field among service,
patient name, phone and channel id that is not overridden keeps its
previous (trim-stable) value. -/
theorem reschedule_C4 (store : EventStore) (a : RescheduleArgs) (ev : CalEvent)
    (ns ne : Int) (hev : store a.appointment_id = some ev)
    (hns : a.new_start = some ns) (hne : a.new_end = some ne) :
    ∃ store', rescheduleAppointmentTool store a = some (store', a.appointment_id, ns, ne) ∧
      ∃ ev', store' a.appointment_id = some ev' ∧
        ev'.start = ns ∧ ev'.stop = ne ∧
        privGet ev'.priv "reminder24hSent" = some "false" ∧
        privGet ev'.priv "reminder2hSent" = some "false" ∧
        (a.service = "" → trimInvOpt (privGet ev.priv "service") →
          privGet ev'.priv "service" = privGet ev.priv "service") ∧
        (a.patient_name = "" → trimInvOpt (privGet ev.priv "patient_name") →
          privGet ev'.priv "patient_name" = privGet ev.priv "patient_name") ∧
        (a.phone = "" → trimInvOpt (privGet ev.priv "wa_phone") →
          privGet ev'.priv "wa_phone" = privGet ev.priv "wa_phone") ∧
        (a.wa_id = "" → trimInvOpt (privGet ev.priv "wa_id") →
          privGet ev'.priv "wa_id" = privGet ev.priv "wa_id") := by
  unfold rescheduleAppointmentTool
  rw [hns, hne, hev]
  exact ⟨_, rfl, _, storeSet_self _ _ _, rfl, rfl,
    rescheduleNextPriv_flag24 ev.priv a, rescheduleNextPriv_flag2 ev.priv a,
    fun h ht => rescheduleNextPriv_keeps_service ev.priv a h ht,
    fun h ht => rescheduleNextPriv_keeps_name ev.priv a h ht,
    fun h ht => rescheduleNextPriv_keeps_phone ev.priv a h ht,
    fun h ht => rescheduleNextPriv_keeps_waid ev.priv a h ht⟩

theorem trimInvOpt_of_eq {o : Option String} (v : String) (h : o = some v)
    (hv : jsTrim v = v) : trimInvOpt o := by
  intro w hw
  rw [h] at hw
  injection hw with hw
  subst hw
  exact hv

/-- Witness for C4: rescheduling the stored demo appointment with no
overrides. -/
theorem reschedule_C4_witness :
    ∃ store',
      rescheduleAppointmentTool demoStore
        { appointment_id := "apt1", new_slot_id := "slot_6600",
          new_start := some 6600, new_end := some 6630,
          service := "", patient_name := "", phone := "", wa_id := "" } =
        some (store', "apt1", 6600, 6630) ∧
      ∃ ev', store' "apt1" = some ev' ∧
        ev'.start = 6600 ∧ ev'.stop = 6630 ∧
        privGet ev'.priv "reminder24hSent" = some "false" ∧
        privGet ev'.priv "reminder2hSent" = some "false" ∧
        privGet ev'.priv "service" = privGet demoEvent.priv "service" ∧
        privGet ev'.priv "patient_name" = privGet demoEvent.priv "patient_name" ∧
        privGet ev'.priv "wa_phone" = privGet demoEvent.priv "wa_phone" ∧
        privGet ev'.priv "wa_id" = privGet demoEvent.priv "wa_id" := by
  obtain ⟨store', h1, ev', h2, h3, h4, h5, h6, h7, h8, h9, h10⟩ :=
    reschedule_C4 demoStore
      { appointment_id := "apt1", new_slot_id := "slot_6600",
        new_start := some 6600, new_end := some 6630,
        service := "", patient_name := "", phone := "", wa_id := "" }
      demoEvent 6600 6630 (by decide) rfl rfl
  exact ⟨store', h1, ev', h2, h3, h4, h5, h6,
    h7 rfl (trimInvOpt_of_eq "ortodoncia" rfl rfl),
    h8 rfl (trimInvOpt_of_eq "Ana Diaz" rfl rfl),
    h9 rfl (trimInvOpt_of_eq "18095551234" rfl rfl),
    h10 rfl (trimInvOpt_of_eq "18095551234" rfl rfl)⟩

/-- C7: cancelling marks the status cancelled, appends the reason to the
event description, and never deletes the event — a subsequent `getEvent`
still returns the record (and events under other ids are untouched). -/
theorem cancel_C7 (store : EventStore) (appointment_id reason : String)
    (ev : CalEvent) (hev : store appointment_id = some ev) :
    ∃ store', cancelAppointmentTool store appointment_id reason =
        some (store', appointment_id) ∧
      ∃ ev', store' appointment_id = some ev' ∧
        privGet ev'.priv "status" = some "cancelled" ∧
        ev'.description = ev.description ++ "\n\nCancelación: " ++ reason ∧
        (∀ i, i ≠ appointment_id → store' i = store i) := by
  unfold cancelAppointmentTool
  rw [hev]
  refine ⟨_, rfl, _, storeSet_self _ _ _, ?_, rfl, ?_⟩
  · simp [privGet_privSet]
  · intro i hi
    exact storeSet_other _ _ _ i hi

/-- Witness for C7 at the stored demo appointment; the record under the
other id `"apt2"` is untouched. -/
theorem cancel_C7_witness :
    ∃ store', cancelAppointmentTool demoStore "apt1" "no puedo ir" =
        some (store', "apt1") ∧
      ∃ ev', store' "apt1" = some ev' ∧
        privGet ev'.priv "status" = some "cancelled" ∧
        ev'.description = demoEvent.description ++ "\n\nCancelación: " ++ "no puedo ir" ∧
        store' "apt2" = demoStore "apt2" := by
  obtain ⟨store', h1, ev', h2, h3, h4, h5⟩ :=
    cancel_C7 demoStore "apt1" "no puedo ir" demoEvent (by decide)
  exact ⟨store', h1, ev', h2, h3, h4, h5 "apt2" (by decide)⟩

/-! ## Reminder sweep (C5) -/

/-- C5: in one reminder-sweep pass over an appointment: a cancelled
appointment is skipped with no send and no metadata change; a window whose
sent-flag is already set sends nothing for that window and keeps the flag;
and a window's flag becomes set only after an (attempted and) successful
send inside that window. -/
theorem reminder_C5 (now : Int) (r24 r2 ok24 ok2 : Bool) (priv : PrivMap)
    (startT : Option Int) (sent24 sent2 : Bool) (priv' : PrivMap)
    (hR : reminderStep now r24 r2 ok24 ok2 priv startT = (sent24, sent2, priv')) :
    (privGet priv "status" = some "cancelled" →
      sent24 = false ∧ sent2 = false ∧ priv' = priv) ∧
    (privGet priv "reminder24hSent" = some "true" →
      sent24 = false ∧ privGet priv' "reminder24hSent" = some "true") ∧
    (privGet priv "reminder2hSent" = some "true" →
      sent2 = false ∧ privGet priv' "reminder2hSent" = some "true") ∧
    (privGet priv' "reminder24hSent" ≠ privGet priv "reminder24hSent" →
      sent24 = true ∧ ok24 = true ∧ privGet priv' "reminder24hSent" = some "true" ∧
      ∃ st, startT = some st ∧ 23 * 60 ≤ st - now ∧ st - now ≤ 25 * 60) ∧
    (privGet priv' "reminder2hSent" ≠ privGet priv "reminder2hSent" →
      sent2 = true ∧ ok2 = true ∧ privGet priv' "reminder2hSent" = some "true" ∧
      ∃ st, startT = some st ∧ 90 ≤ st - now ∧ st - now ≤ 135) := by
  unfold reminderStep at hR
  by_cases hc : privGet priv "status" = some "cancelled"
  · rw [if_pos hc] at hR
    injection hR with h1 h2
    injection h2 with h2 h3
    subst h1; subst h2; subst h3
    exact ⟨fun _ => ⟨rfl, rfl, rfl⟩, fun h24 => ⟨rfl, h24⟩, fun h2' => ⟨rfl, h2'⟩,
      fun hne => absurd rfl hne, fun hne => absurd rfl hne⟩
  · rw [if_neg hc] at hR
    cases hph : privGet priv "wa_phone" with
    | none =>
      rw [hph] at hR
      cases startT <;>
        · simp only at hR
          injection hR with h1 h2
          injection h2 with h2 h3
          subst h1; subst h2; subst h3
          exact ⟨fun hcc => absurd hcc hc, fun h24 => ⟨rfl, h24⟩, fun h2' => ⟨rfl, h2'⟩,
            fun hne => absurd rfl hne, fun hne => absurd rfl hne⟩
    | some phone =>
      rw [hph] at hR
      cases hst : startT with
      | none =>
        rw [hst] at hR
        simp only at hR
        injection hR with h1 h2
        injection h2 with h2 h3
        subst h1; subst h2; subst h3
        exact ⟨fun hcc => absurd hcc hc, fun h24 => ⟨rfl, h24⟩, fun h2' => ⟨rfl, h2'⟩,
          fun hne => absurd rfl hne, fun hne => absurd rfl hne⟩
      | some st =>
        rw [hst] at hR
        simp only at hR
        by_cases hph0 : phone = ""
        · rw [if_pos hph0] at hR
          injection hR with h1 h2
          injection h2 with h2 h3
          subst h1; subst h2; subst h3
          exact ⟨fun hcc => absurd hcc hc, fun h24 => ⟨rfl, h24⟩, fun h2' => ⟨rfl, h2'⟩,
            fun hne => absurd rfl hne, fun hne => absurd rfl hne⟩
        · rw [if_neg hph0] at hR
          injection hR with h1 h2
          injection h2 with h2 h3
          refine ⟨fun hcc => absurd hcc hc, ?_, ?_, ?_, ?_⟩
          · intro h24
            constructor
            · rw [← h1, h24]; simp
            · subst h3
              split_ifs with hp2 hp24
              · simp [privGet_privSet, h24]
              · rw [h24] at hp24; simp at hp24
              · exact h24
          · intro h2'
            constructor
            · rw [← h2, h2']; simp
            · subst h3
              split_ifs with hp2 hp24
              · rw [h2'] at hp2; simp at hp2
              · simp [privGet_privSet, h2']
              · exact h2'
          · intro hne
            subst h3
            split_ifs at hne ⊢ with hp2 hp24
            · rw [privGet_privSet] at hne
              simp at hne
            · rw [privGet_privSet] at hne
              simp only [if_pos rfl] at hne
              have ha : (r24 && decide (st - now ≤ 25 * 60 ∧ st - now ≥ 23 * 60) &&
                  !(privGet priv "reminder24hSent" == some "true")) = true ∧ ok24 = true := by
                simpa using hp24
              refine ⟨by rw [← h1]; exact ha.1, ha.2, ?_, st, rfl, ?_, ?_⟩
              · rw [privGet_privSet]; simp
              · have := ha.1
                simp only [Bool.and_eq_true, decide_eq_true_eq] at this
                exact this.1.2.2
              · have := ha.1
                simp only [Bool.and_eq_true, decide_eq_true_eq] at this
                exact this.1.2.1
            · exact absurd rfl hne
          · intro hne
            subst h3
            split_ifs at hne ⊢ with hp2 hp24
            · rw [privGet_privSet] at hne
              simp only [if_pos rfl] at hne
              have ha : (r2 && decide (st - now ≤ 135 ∧ st - now ≥ 90) &&
                  !(privGet priv "reminder2hSent" == some "true")) = true ∧ ok2 = true := by
                simpa using hp2
              refine ⟨by rw [← h2]; exact ha.1, ha.2, ?_, st, rfl, ?_, ?_⟩
              · rw [privGet_privSet]; simp
              · have := ha.1
                simp only [Bool.and_eq_true, decide_eq_true_eq] at this
                exact this.1.2.2
              · have := ha.1
                simp only [Bool.and_eq_true, decide_eq_true_eq] at this
                exact this.1.2.1
            · rw [privGet_privSet] at hne
              simp at hne
            · exact absurd rfl hne

/-- Witness for C5: an appointment 24 hours out whose day-before flag is
already set; the sweep sends no day-before message and the flag stays set. -/
theorem reminder_C5_witness :
    false = false ∧ privGet demoEvent.priv "reminder24hSent" = some "true" :=
  (reminder_C5 5100 true true true true demoEvent.priv (some demoEvent.start)
    false false demoEvent.priv (by decide)).2.1 rfl

/-! ## Webhook de-duplication (C6) -/

/-- C6: an inbound message whose id equals the session's stored
last-processed id short-circuits before any side effect: no effects at all
(no outbound send, no calendar call, no hub report) and the session is
saved unchanged, so its conversation state does not advance. -/
theorem webhook_dedup_C6 (waFrom : String) (m : String) (userTextRaw : String)
    (session : Session) (o : Oracle) (hFrom : waFrom ≠ "")
    (hDup : session.lastMsgId = some m) :
    handleWebhook waFrom (some m) userTextRaw session o =
      { saved := some session, effects := [], status := 200 } := by
  unfold handleWebhook
  rw [if_neg hFrom]
  simp [hDup]

/-- Witness for C6 at a concrete redelivered message. -/
theorem webhook_dedup_C6_witness :
    handleWebhook "18095550000" (some "wamid.1") "hola"
        { defaultSessionT with lastMsgId := some "wamid.1" } demoOracle =
      { saved := some { defaultSessionT with lastMsgId := some "wamid.1" },
        effects := [], status := 200 } :=
  webhook_dedup_C6 "18095550000" "wamid.1" "hola"
    { defaultSessionT with lastMsgId := some "wamid.1" } demoOracle
    (by decide) rfl

/-! ## The await_name branch (C9) -/

/-- Routing inside `webhookMain`: a session sitting in `await_name` with a
selected slot reaches the `await_name` branch, with an effect prefix (the
hub report, possibly the quick-intent calendar lookup) free of calendar
mutations.  The lookup is assumed to find nothing when no booking is
remembered, so the session is not diverted to `post_booking`. -/
theorem webhookMain_awaitName (waFrom userText : String) (s1 : Session) (o : Oracle)
    (hstate : s1.state = "await_name") (hsel : s1.selectedSlot.isSome = true)
    (hNoHij : s1.lastBooking = none → o.findByPhone = none) :
    ∃ e : List Effect, (∀ eff ∈ e, calendarMutation eff = false) ∧
      webhookMain waFrom userText s1 o =
        awaitNameStep waFrom userText (normalizeText userText) s1 e := by
  have hdispatch : ∀ e : List Effect,
      stateDispatch waFrom userText (normalizeText userText)
        (looksLikeCancel (normalizeText userText) || isChoice (normalizeText userText) 3)
        (looksLikeReschedule (normalizeText userText) || isChoice (normalizeText userText) 2)
        (looksLikeConfirm (normalizeText userText) || isChoice (normalizeText userText) 1)
        s1 e o =
      awaitNameStep waFrom userText (normalizeText userText) s1 e := by
    intro e
    unfold stateDispatch
    cases hb : s1.lastBooking with
    | some b => simp [hstate, hsel]
    | none => simp [hstate, hsel]
  cases hb : s1.lastBooking with
  | some b =>
    refine ⟨[Effect.hubInbound waFrom userText], ?_, ?_⟩
    · intro eff hf
      simp only [List.mem_singleton] at hf
      subst hf
      rfl
    · unfold webhookMain
      simp only [hb, Option.isNone_some, Bool.and_false, Bool.false_eq_true, if_false,
        hstate, show (("await_name" : String) == "idle") = false from rfl,
        Bool.false_and, Bool.and_false, List.append_nil]
      exact hdispatch _
  | none =>
    have hfb := hNoHij hb
    by_cases hw : (looksLikeCancel (normalizeText userText) ||
        isChoice (normalizeText userText) 3 ||
        (looksLikeReschedule (normalizeText userText) ||
          isChoice (normalizeText userText) 2) ||
        (looksLikeConfirm (normalizeText userText) ||
          isChoice (normalizeText userText) 1)) = true
    · refine ⟨[Effect.hubInbound waFrom userText, Effect.calFindByPhone waFrom], ?_, ?_⟩
      · intro eff hf
        rcases List.mem_cons.mp hf with rfl | hf
        · rfl
        · rcases List.mem_cons.mp hf with rfl | hf
          · rfl
          · simp at hf
      · unfold webhookMain
        simp only [hb, Option.isNone_none, Bool.and_true, hw, if_true, hfb,
          hstate, show (("await_name" : String) == "idle") = false from rfl,
          Bool.false_and, Bool.and_false, List.cons_append, List.nil_append]
        exact hdispatch _
    · simp only [Bool.not_eq_true] at hw
      refine ⟨[Effect.hubInbound waFrom userText], ?_, ?_⟩
      · intro eff hf
        simp only [List.mem_singleton] at hf
        subst hf
        rfl
      · unfold webhookMain
        simp only [hb, Option.isNone_none, Bool.and_true, hw, Bool.false_eq_true,
          if_false, hstate, show (("await_name" : String) == "idle") = false from rfl,
          Bool.false_and, Bool.and_false, List.append_nil]
        exact hdispatch _

/-- C9 counterexample: in `await_name` with a selected slot, the purely
numeric input `"1234"` is *not* rejected — it is stored as the patient name
and the session advances to `await_phone`, refuting "every input that is
purely numeric ... is rejected with a reprompt". -/
theorem awaitName_C9_cex :
    ((handleWebhook "18095550000" none "1234" demoAwaitNameSession demoOracle).saved.map
      Session.state) = some "await_phone" ∧
    ((handleWebhook "18095550000" none "1234" demoAwaitNameSession demoOracle).saved.map
      Session.pendingName) = some (some "1234") ∧
    (normalizeText "1234").data.all Char.isDigit = true :=
  ⟨by decide, by decide, by decide⟩

/-- C9 (amended): in `await_name` with a selected slot (and the inbound
neither empty, a duplicate, nor diverted by the quick-intent calendar
lookup), an input whose normalised form is shorter than 3 characters or a
bare confirmation word (si/sí/ok/listo) is rejected with a reprompt —
session state, stored name and selection unchanged, status 200, and no
calendar mutation; every other input, *including purely numeric ones of
length ≥ 3*, is stored as the name and the state moves to `await_phone`. -/
theorem awaitName_C9_amended (waFrom : String) (msgId : Option String)
    (userTextRaw : String) (s : Session) (o : Oracle)
    (hFrom : waFrom ≠ "")
    (hDup : ∀ m, msgId = some m → s.lastMsgId ≠ some m)
    (hState : s.state = "await_name")
    (hSel : s.selectedSlot.isSome = true)
    (hText : jsTrim userTextRaw ≠ "")
    (hNoHij : s.lastBooking = none → o.findByPhone = none) :
    (handleWebhook waFrom msgId userTextRaw s o).status = 200 ∧
    ((decide ((normalizeText (jsTrim userTextRaw)).length < 3) ||
        (["si", "sí", "ok", "listo"] : List String).contains
          (normalizeText (jsTrim userTextRaw))) = true →
      ∃ s', (handleWebhook waFrom msgId userTextRaw s o).saved = some s' ∧
        s'.state = "await_name" ∧ s'.pendingName = s.pendingName ∧
        s'.selectedSlot = s.selectedSlot ∧
        Effect.sendText waFrom OutMsg.askFullName ∈
          (handleWebhook waFrom msgId userTextRaw s o).effects ∧
        ∀ eff ∈ (handleWebhook waFrom msgId userTextRaw s o).effects,
          calendarMutation eff = false) ∧
    ((decide ((normalizeText (jsTrim userTextRaw)).length < 3) ||
        (["si", "sí", "ok", "listo"] : List String).contains
          (normalizeText (jsTrim userTextRaw))) = false →
      ∃ s', (handleWebhook waFrom msgId userTextRaw s o).saved = some s' ∧
        s'.state = "await_phone" ∧ s'.pendingName = some (jsTrim userTextRaw) ∧
        Effect.sendText waFrom OutMsg.askPhone ∈
          (handleWebhook waFrom msgId userTextRaw s o).effects) := by
  have hred : ∃ s1 : Session, s1.state = "await_name" ∧ s1.selectedSlot.isSome = true ∧
      s1.lastBooking = s.lastBooking ∧ s1.pendingName = s.pendingName ∧
      s1.selectedSlot = s.selectedSlot ∧
      handleWebhook waFrom msgId userTextRaw s o =
        webhookMain waFrom (jsTrim userTextRaw) s1 o := by
    cases msgId with
    | none =>
      refine ⟨s, hState, hSel, rfl, rfl, rfl, ?_⟩
      unfold handleWebhook
      rw [if_neg hFrom]
      simp only [Bool.false_eq_true, if_false]
      rw [if_neg hText]
    | some m =>
      have hne : s.lastMsgId ≠ some m := hDup m rfl
      have hbne : (s.lastMsgId == some m) = false := beq_eq_false_iff_ne.mpr hne
      refine ⟨{ s with lastMsgId := some m }, hState, hSel, rfl, rfl, rfl, ?_⟩
      unfold handleWebhook
      rw [if_neg hFrom]
      simp only [hbne, Bool.false_eq_true, if_false]
      rw [if_neg hText]
  obtain ⟨s1, h1, h2, h3, h4, h5, heq⟩ := hred
  obtain ⟨e, he, hmain⟩ :=
    webhookMain_awaitName waFrom (jsTrim userTextRaw) s1 o h1 h2 (h3 ▸ hNoHij)
  rw [heq, hmain]
  unfold awaitNameStep
  refine ⟨?_, ?_, ?_⟩
  · split_ifs <;> rfl
  · intro hcond
    rw [if_pos hcond]
    refine ⟨s1, rfl, h1, h4, h5, ?_, ?_⟩
    · simp
    · intro eff hf
      rcases List.mem_append.mp hf with hf | hf
      · exact he eff hf
      · simp only [List.mem_singleton] at hf
        subst hf
        rfl
  · intro hcond
    have hnc : ¬((decide ((normalizeText (jsTrim userTextRaw)).length < 3) ||
        (["si", "sí", "ok", "listo"] : List String).contains
          (normalizeText (jsTrim userTextRaw))) = true) := by
      rw [hcond]
      simp
    rw [if_neg hnc]
    refine ⟨_, rfl, rfl, rfl, ?_⟩
    simp

/-- Witness for the amended C9 at the rejected input `"xy"`: all routing
hypotheses hold and the handler acknowledges with status 200. -/
theorem awaitName_C9_amended_witness :
    (handleWebhook "18095550000" none "xy" demoAwaitNameSession demoOracle).status = 200 :=
  (awaitName_C9_amended "18095550000" none "xy" demoAwaitNameSession demoOracle
    (by decide) (fun m h => Option.noConfusion h) rfl rfl (by decide) (fun _ => rfl)).1

/-! ## Session persistence tolerance (C10) -/

theorem jLookup_jSet (f : List (String × JVal)) (k : String) (v : JVal) (k' : String) :
    jLookup (jSet f k v) k' = if k' = k then some v else jLookup f k' := by
  induction f with
  | nil =>
    by_cases h : k' = k
    · subst h; simp [jSet, jLookup, List.lookup]
    · have hb : (k' == k) = false := by simpa using h
      simp [jSet, jLookup, List.lookup, hb, h]
  | cons hd tl ih =>
    obtain ⟨a, b⟩ := hd
    by_cases h : a = k
    · subst h
      by_cases h2 : k' = a
      · subst h2; simp [jSet, jLookup, List.lookup]
      · have hb : (k' == a) = false := by simpa using h2
        simp [jSet, jLookup, List.lookup, hb, h2]
    · by_cases h2 : k' = a
      · subst h2
        have hkk : ¬ k' = k := fun he => h he.symm.symm
        simp [jSet, jLookup, List.lookup, h, hkk]
      · have hb : (k' == a) = false := by simpa using h2
        simp only [jSet, if_neg h, jLookup, List.lookup, hb]
        exact ih

theorem fixResched_spec (rf : List (String × JVal)) :
    (∃ b, jLookup (fixResched rf) "active" = some (JVal.jbool b)) ∧
    (∃ x, jLookup (fixResched rf) "appointment_id" = some (JVal.jstr x)) ∧
    (∃ x, jLookup (fixResched rf) "phone" = some (JVal.jstr x)) ∧
    (∃ x, jLookup (fixResched rf) "patient_name" = some (JVal.jstr x)) ∧
    (∃ x, jLookup (fixResched rf) "service" = some (JVal.jstr x)) := by
  simp only [fixResched]
  split <;> split <;> split <;> split <;> split <;>
    simp_all [jLookup_jSet]

theorem sf_state (g : List (String × JVal)) :
    ∃ st, jLookup (sanitizeFields g) "state" = some (JVal.jstr st) := by
  simp only [sanitizeFields]
  split <;> split <;> split <;> split <;> split <;>
    simp only [jLookup_jSet, reduceIte] <;>
    first
      | exact ⟨_, rfl⟩
      | exact ⟨_, by assumption⟩

theorem sf_greeted (g : List (String × JVal)) :
    ∃ b, jLookup (sanitizeFields g) "greeted" = some (JVal.jbool b) := by
  simp only [sanitizeFields]
  split <;> split <;> split <;> split <;> split <;>
    simp only [jLookup_jSet, reduceIte] <;>
    first
      | exact ⟨_, rfl⟩
      | exact ⟨_, by assumption⟩

theorem sf_messages (g : List (String × JVal)) :
    ∃ xs, jLookup (sanitizeFields g) "messages" = some (JVal.jarr xs) ∧
      xs.length ≤ 20 := by
  simp only [sanitizeFields]
  split <;> split <;> split <;> split <;> split <;>
  · simp only [jLookup_jSet, reduceIte]
    exact ⟨_, rfl, by simp only [takeLast, List.length_drop]; omega⟩

theorem sf_lastSlots (g : List (String × JVal)) :
    ∃ xs, jLookup (sanitizeFields g) "lastSlots" = some (JVal.jarr xs) ∧
      xs.length ≤ 10 := by
  simp only [sanitizeFields]
  split <;> split <;> split <;> split <;> split <;>
  · simp only [jLookup_jSet, reduceIte]
    exact ⟨_, rfl, by simp only [List.length_take]; omega⟩

theorem sf_resched (g : List (String × JVal)) :
    ∃ rf, jLookup (sanitizeFields g) "reschedule" = some (JVal.jobj rf) ∧
      (∃ b, jLookup rf "active" = some (JVal.jbool b)) ∧
      (∃ x, jLookup rf "appointment_id" = some (JVal.jstr x)) ∧
      (∃ x, jLookup rf "phone" = some (JVal.jstr x)) ∧
      (∃ x, jLookup rf "patient_name" = some (JVal.jstr x)) ∧
      (∃ x, jLookup rf "service" = some (JVal.jstr x)) := by
  simp only [sanitizeFields]
  split <;> split <;> split <;> split <;> split <;>
  · simp only [jLookup_jSet, reduceIte]
    first
      | exact ⟨_, rfl, fixResched_spec _⟩
      | exact ⟨_, rfl, ⟨_, rfl⟩, ⟨_, rfl⟩, ⟨_, rfl⟩, ⟨_, rfl⟩, ⟨_, rfl⟩⟩

theorem sanitizeFields_passthrough (g : List (String × JVal)) (k : String)
    (hk : k ∉ (["messages", "lastSlots", "reschedule", "state", "greeted"] :
      List String)) :
    jLookup (sanitizeFields g) k = jLookup g k := by
  simp only [List.mem_cons, List.not_mem_nil, or_false, not_or] at hk
  obtain ⟨hk1, hk2, hk3, hk4, hk5⟩ := hk
  simp only [sanitizeFields]
  split <;> split <;> split <;> split <;> split <;>
    simp [jLookup_jSet, hk1, hk2, hk3, hk4, hk5]

/-- C10: loading a stored session value never fails — for every raw value
(unparseable JSON and non-objects included, via the default fallback) the
result is an object whose `state` is a string, whose `messages` and
`lastSlots` are arrays capped at 20 and 10 entries, whose `reschedule` is
an object of the fixed five-field shape, whose `greeted` is a boolean, and
in which unknown fields of a stored object are passed through untouched
(ignored rather than rejected). -/
theorem session_load_C10 (raw : Option JVal) :
    ∃ f, getSessionJ raw = JVal.jobj f ∧
      (∃ st, jLookup f "state" = some (JVal.jstr st)) ∧
      (∃ xs, jLookup f "messages" = some (JVal.jarr xs) ∧ xs.length ≤ 20) ∧
      (∃ xs, jLookup f "lastSlots" = some (JVal.jarr xs) ∧ xs.length ≤ 10) ∧
      (∃ rf, jLookup f "reschedule" = some (JVal.jobj rf) ∧
        (∃ b, jLookup rf "active" = some (JVal.jbool b)) ∧
        (∃ x, jLookup rf "appointment_id" = some (JVal.jstr x)) ∧
        (∃ x, jLookup rf "phone" = some (JVal.jstr x)) ∧
        (∃ x, jLookup rf "patient_name" = some (JVal.jstr x)) ∧
        (∃ x, jLookup rf "service" = some (JVal.jstr x))) ∧
      (∃ b, jLookup f "greeted" = some (JVal.jbool b)) ∧
      (∀ g k, raw = some (JVal.jobj g) →
        k ∉ (["messages", "lastSlots", "reschedule", "state", "greeted"] :
          List String) →
        jLookup f k = jLookup g k) := by
  have hdef : ∀ fl, getSessionJ raw = JVal.jobj (sanitizeFields fl) →
      (∀ g k, raw = some (JVal.jobj g) →
        k ∉ (["messages", "lastSlots", "reschedule", "state", "greeted"] :
          List String) → jLookup (sanitizeFields fl) k = jLookup g k) →
      ∃ f, getSessionJ raw = JVal.jobj f ∧
        (∃ st, jLookup f "state" = some (JVal.jstr st)) ∧
        (∃ xs, jLookup f "messages" = some (JVal.jarr xs) ∧ xs.length ≤ 20) ∧
        (∃ xs, jLookup f "lastSlots" = some (JVal.jarr xs) ∧ xs.length ≤ 10) ∧
        (∃ rf, jLookup f "reschedule" = some (JVal.jobj rf) ∧
          (∃ b, jLookup rf "active" = some (JVal.jbool b)) ∧
          (∃ x, jLookup rf "appointment_id" = some (JVal.jstr x)) ∧
          (∃ x, jLookup rf "phone" = some (JVal.jstr x)) ∧
          (∃ x, jLookup rf "patient_name" = some (JVal.jstr x)) ∧
          (∃ x, jLookup rf "service" = some (JVal.jstr x))) ∧
        (∃ b, jLookup f "greeted" = some (JVal.jbool b)) ∧
        (∀ g k, raw = some (JVal.jobj g) →
          k ∉ (["messages", "lastSlots", "reschedule", "state", "greeted"] :
            List String) → jLookup f k = jLookup g k) := by
    intro fl h hp
    exact ⟨sanitizeFields fl, h, sf_state fl, sf_messages fl, sf_lastSlots fl,
      sf_resched fl, sf_greeted fl, hp⟩
  cases raw with
  | none =>
    refine hdef [("messages", JVal.jarr []), ("state", JVal.jstr "idle"),
      ("lastSlots", JVal.jarr []), ("selectedSlot", JVal.jnull),
      ("pendingService", JVal.jnull), ("pendingRange", JVal.jnull),
      ("pendingName", JVal.jnull), ("lastBooking", JVal.jnull),
      ("greeted", JVal.jbool false), ("lastMsgId", JVal.jnull),
      ("reschedule", defaultReschedJ)] rfl ?_
    intro g k hg
    cases hg
  | some v =>
    cases v with
    | jobj g0 =>
      refine hdef g0 rfl ?_
      intro g k hg hk
      cases hg
      exact sanitizeFields_passthrough _ k hk
    | jarr xs =>
      refine hdef [] rfl ?_
      intro g k hg
      cases hg
    | jnull =>
      refine hdef [("messages", JVal.jarr []), ("state", JVal.jstr "idle"),
        ("lastSlots", JVal.jarr []), ("selectedSlot", JVal.jnull),
        ("pendingService", JVal.jnull), ("pendingRange", JVal.jnull),
        ("pendingName", JVal.jnull), ("lastBooking", JVal.jnull),
        ("greeted", JVal.jbool false), ("lastMsgId", JVal.jnull),
        ("reschedule", defaultReschedJ)] ?_ ?_
      · rfl
      · intro g k hg
        cases hg
    | jbool b =>
      refine hdef [("messages", JVal.jarr []), ("state", JVal.jstr "idle"),
        ("lastSlots", JVal.jarr []), ("selectedSlot", JVal.jnull),
        ("pendingService", JVal.jnull), ("pendingRange", JVal.jnull),
        ("pendingName", JVal.jnull), ("lastBooking", JVal.jnull),
        ("greeted", JVal.jbool false), ("lastMsgId", JVal.jnull),
        ("reschedule", defaultReschedJ)] ?_ ?_
      · rfl
      · intro g k hg
        cases hg
    | jnum n =>
      refine hdef [("messages", JVal.jarr []), ("state", JVal.jstr "idle"),
        ("lastSlots", JVal.jarr []), ("selectedSlot", JVal.jnull),
        ("pendingService", JVal.jnull), ("pendingRange", JVal.jnull),
        ("pendingName", JVal.jnull), ("lastBooking", JVal.jnull),
        ("greeted", JVal.jbool false), ("lastMsgId", JVal.jnull),
        ("reschedule", defaultReschedJ)] ?_ ?_
      · rfl
      · intro g k hg
        cases hg
    | jstr sv =>
      refine hdef [("messages", JVal.jarr []), ("state", JVal.jstr "idle"),
        ("lastSlots", JVal.jarr []), ("selectedSlot", JVal.jnull),
        ("pendingService", JVal.jnull), ("pendingRange", JVal.jnull),
        ("pendingName", JVal.jnull), ("lastBooking", JVal.jnull),
        ("greeted", JVal.jbool false), ("lastMsgId", JVal.jnull),
        ("reschedule", defaultReschedJ)] ?_ ?_
      · rfl
      · intro g k hg
        cases hg

/-- Witness for C10 at a malformed stored session (a numeric `state`, a
non-array `messages`, an unknown extra field that must be passed through). -/
theorem session_load_C10_witness :
    ∃ f, getSessionJ (some (JVal.jobj [("state", JVal.jnum 7),
        ("messages", JVal.jstr "oops"), ("extraField", JVal.jnum 42)])) =
      JVal.jobj f ∧
      (∃ st, jLookup f "state" = some (JVal.jstr st)) ∧
      (∃ xs, jLookup f "messages" = some (JVal.jarr xs) ∧ xs.length ≤ 20) ∧
      (∃ xs, jLookup f "lastSlots" = some (JVal.jarr xs) ∧ xs.length ≤ 10) ∧
      (∃ rf, jLookup f "reschedule" = some (JVal.jobj rf) ∧
        (∃ b, jLookup rf "active" = some (JVal.jbool b)) ∧
        (∃ x, jLookup rf "appointment_id" = some (JVal.jstr x)) ∧
        (∃ x, jLookup rf "phone" = some (JVal.jstr x)) ∧
        (∃ x, jLookup rf "patient_name" = some (JVal.jstr x)) ∧
        (∃ x, jLookup rf "service" = some (JVal.jstr x))) ∧
      (∃ b, jLookup f "greeted" = some (JVal.jbool b)) ∧
      jLookup f "extraField" =
        jLookup [("state", JVal.jnum 7), ("messages", JVal.jstr "oops"),
          ("extraField", JVal.jnum 42)] "extraField" := by
  obtain ⟨f, h1, h2, h3, h4, h5, h6, hp⟩ :=
    session_load_C10 (some (JVal.jobj [("state", JVal.jnum 7),
      ("messages", JVal.jstr "oops"), ("extraField", JVal.jnum 42)]))
  exact ⟨f, h1, h2, h3, h4, h5, h6, hp _ "extraField" rfl (by decide)⟩

end WaDentalBot
